import Mathlib

/-!
Shallow embedding of the mesh-model-generator core (schema normalizer and
TypeScript renderer) together with proofs about the behaviour of its
functions.  Every definition is translated from the TypeScript source:
`src/parser.ts`, `src/renderers/typescript-renderer.ts`,
`src/utils/word-wrap.ts`, `src/utils/format-as-pojo.ts` and
`src/parse-and-generate.ts`.

Modelling conventions:
* JavaScript objects used as string-keyed hashes are modelled as association
  lists (`List (String × α)`) in insertion order; assigning to an existing
  key updates the entry in place, assigning to a fresh key appends.
* Absent fields are modelled as `none`; JavaScript string truthiness
  (`undefined`, `""` falsy) is `truthyStr`.
* `JSON.parse` of embedded schema/example text is modelled as receiving the
  already-decoded value (the YAML/JSON decoders are external collaborators;
  malformed-JSON failures are outside the embedded fragment).
* JavaScript regular-expression scans are realized as equivalent
  left-to-right character automata, so that every definition is structurally
  recursive and computable by the kernel.
-/

namespace MeshGen

/-! ## JavaScript-style helpers -/

/-- Truthiness of an optional JS string: `undefined` and `""` are falsy. -/
def truthyStr : Option String → Bool
  | none => false
  | some s => s ≠ ""

/-- Truthiness of an optional JS boolean: only `true` is truthy. -/
def truthyBool : Option Bool → Bool
  | some true => true
  | _ => false

/-- JS string coercion used when an absent field is concatenated into text. -/
def jsStrOf : Option String → String
  | none => "undefined"
  | some s => s

/-- Association list lookup (`hash[key]`). -/
def lookupAL {α : Type} (m : List (String × α)) (k : String) : Option α :=
  (m.find? (fun p => p.1 = k)).map Prod.snd

/-- Key-presence test (`key in hash`). -/
def hasKeyAL {α : Type} (m : List (String × α)) (k : String) : Bool :=
  (lookupAL m k).isSome

/-- Assignment `hash[key] = v`: update in place if the key exists
(keeping its position), otherwise append. -/
def setAL {α : Type} (m : List (String × α)) (k : String) (v : α) :
    List (String × α) :=
  if hasKeyAL m k then m.map (fun p => if p.1 = k then (k, v) else p)
  else m ++ [(k, v)]

/-- `Object.assign(target, source)`: assign every source entry, in order,
onto the target. -/
def jsAssign {α : Type} (target source : List (String × α)) :
    List (String × α) :=
  source.foldl (fun acc p => setAL acc p.1 p.2) target

/-- Stable insertion of `x` into `l`: `x` is placed before the first element
it is strictly below (`le x y && !(le y x)`), hence after all elements it
ties with — the behaviour of a stable JS `Array.prototype.sort`. -/
def stableInsert {α : Type} (le : α → α → Bool) (x : α) : List α → List α
  | [] => [x]
  | y :: ys => if le x y && !(le y x) then x :: y :: ys else y :: stableInsert le x ys

/-- Stable sort by repeated insertion (models the stable JS sort). -/
def jsStableSort {α : Type} (le : α → α → Bool) (l : List α) : List α :=
  l.foldl (fun acc x => stableInsert le x acc) []

/-- Lexicographic comparison of character lists (JS `<` on strings; code
points coincide with UTF-16 units for the characters that occur here). -/
def charListLt : List Char → List Char → Bool
  | [], [] => false
  | [], _ :: _ => true
  | _ :: _, [] => false
  | a :: as', b :: bs => if a < b then true else if b < a then false else charListLt as' bs

def jsStrLt (a b : String) : Bool := charListLt a.data b.data

def jsStrLe (a b : String) : Bool := !(jsStrLt b a)

def jsStartsWith (s pre : String) : Bool := pre.data.isPrefixOf s.data

def jsEndsWith (s suf : String) : Bool := suf.data.reverse.isPrefixOf s.data.reverse

def jsToUpperStr (s : String) : String := String.mk (s.data.map Char.toUpper)

/-- `s.split(sep)` on character lists, fuelled by the input length so that
the recursion is structural (`fuel ≥ length + 1` always suffices because
every step consumes at least one character). -/
def splitOnFuel (sep : List Char) : Nat → List Char → List Char → List (List Char)
  | 0, _, acc => [acc.reverse]
  | _ + 1, [], acc => [acc.reverse]
  | fuel + 1, c :: rest, acc =>
    if sep.isPrefixOf (c :: rest) then
      acc.reverse :: splitOnFuel sep fuel (rest.drop (sep.length - 1)) []
    else splitOnFuel sep fuel rest (c :: acc)

/-- JS `s.split(sep)` for a non-empty literal separator. -/
def jsSplitOn (s sep : String) : List String :=
  (splitOnFuel sep.data (s.data.length + 1) s.data []).map String.mk

/-! ## word-wrap (src/utils/word-wrap.ts) -/

/-- The characters of the `[\s\t]` class used by `wordWrap` (the common
whitespace code points; the exotic Unicode spaces of JS `\s` do not occur in
this ASCII-oriented pipeline). -/
def jsIsSpace (c : Char) : Bool :=
  c = ' ' || c = '\t' || c = '\n' || c = '\r' || c = '\x0b' || c = '\x0c' || c = ' '

/-- JS `s.trim()`. -/
def jsTrim (s : String) : String :=
  String.mk (((s.data.dropWhile jsIsSpace).reverse.dropWhile jsIsSpace).reverse)

/-- Scanner equivalent to repeated `exec` of `/([\s\t]*)([^\s\t]+)/g`:
produce the list of (leading whitespace run, word) pairs, dropping trailing
whitespace that is followed by no word.  `spR`/`wR` accumulate the current
whitespace run and word in reverse. -/
def tokenizeAux : List Char → List Char → List Char → List (String × String)
  | [], _, [] => []
  | [], spR, wR => [(String.mk spR.reverse, String.mk wR.reverse)]
  | c :: rest, spR, wR =>
    if jsIsSpace c then
      match wR with
      | [] => tokenizeAux rest (c :: spR) []
      | _ => (String.mk spR.reverse, String.mk wR.reverse) :: tokenizeAux rest [c] []
    else
      tokenizeAux rest spR (c :: wR)

/-- All (whitespace, word) tokens of a single line. -/
def jsTokenize (s : String) : List (String × String) :=
  tokenizeAux s.data [] []

/-- One iteration of the `while (match = regex.exec(input))` loop of
`wordWrap`: flush the current line when the word does not fit, then append
the word (with its leading whitespace unless the line is empty). -/
def wrapStep (maxLength : Int) (st : Nat × List String × List String)
    (tok : String × String) : Nat × List String × List String :=
  let (length, currentLine, lines) := st
  let (space, word) := tok
  let (length, currentLine, lines) :=
    if length ≠ 0 ∧ maxLength < (length : Int) + space.length + word.length then
      (0, ([] : List String), lines ++ [String.join currentLine])
    else (length, currentLine, lines)
  if currentLine ≠ [] then
    (length + space.length + word.length, currentLine ++ [space, word], lines)
  else
    (length + word.length, currentLine ++ [word], lines)

/-- The final `if (currentLine.length) lines.push(currentLine.join(''))`. -/
def wrapFinish (st : Nat × List String × List String) : List String :=
  if st.2.1 ≠ [] then st.2.2 ++ [String.join st.2.1] else st.2.2

/-- `wordWrap` on a string that contains no newline (the main code path).
`maxLength` is an `Int` because the caller in the renderer computes it by
JS subtraction, which may go negative. -/
def wordWrapLine (input : String) (maxLength : Int) : List String :=
  if maxLength = 0 ∨ (input.length : Int) < maxLength then [input]
  else wrapFinish ((jsTokenize input).foldl (wrapStep maxLength) (0, [], []))

/-- `wordWrap(input, maxLength)` for a string input: a string containing a
newline is split into lines, each of which is wrapped by the main path (the
recursive array call in the source reduces to exactly this). -/
def wordWrap (input : String) (maxLength : Int) : List String :=
  if input.data.contains '\n' then
    (jsSplitOn input "\n").flatMap (fun line => wordWrapLine line maxLength)
  else wordWrapLine input maxLength

/-! ## JSON values and format-as-pojo (src/utils/format-as-pojo.ts) -/

/-- Decoded JSON values.  Numbers are restricted to the integers (the only
numeric literals exercised by this pipeline); `nan`, `inf` and `negInf`
represent the JS number values that can arise from `Number()` coercions of
parameter defaults/examples, never from `JSON.parse`. -/
inductive JsonValue where
  | null
  | bool (b : Bool)
  | num (n : Int)
  | nan
  | inf
  | negInf
  | str (s : String)
  | arr (items : List JsonValue)
  | obj (fields : List (String × JsonValue))

/-- JS truthiness of a JSON value (`null`, `false`, `0`, `""`, `NaN` falsy). -/
def jsTruthyValue : JsonValue → Bool
  | .null => false
  | .bool b => b
  | .num n => n ≠ 0
  | .nan => false
  | .inf => true
  | .negInf => true
  | .str s => s ≠ ""
  | .arr _ => true
  | .obj _ => true

def isIdentStartChar (c : Char) : Bool :=
  ('a' ≤ c && c ≤ 'z') || ('A' ≤ c && c ≤ 'Z') || c = '$' || c = '_'

def isIdentChar (c : Char) : Bool :=
  isIdentStartChar c || ('0' ≤ c && c ≤ '9')

/-- The `/^[a-zA-Z$_][a-zA-Z0-9$_]*$/` identifier test. -/
def isJsIdentifier (s : String) : Bool :=
  match s.data with
  | [] => false
  | c :: rest => isIdentStartChar c && rest.all isIdentChar

/-- `key.replace(/([\\'])/g, '\\$1')`. -/
def escapeBackslashQuote : List Char → List Char
  | [] => []
  | c :: rest =>
    if c = '\\' || c = '\'' then '\\' :: c :: escapeBackslashQuote rest
    else c :: escapeBackslashQuote rest

/-- The subsequent `\n`/`\r`/`\t` escapes (they cannot interact with the
backslash escapes, so a single pass is equivalent to the three replaces). -/
def escapeControlChars : List Char → List Char
  | [] => []
  | c :: rest =>
    if c = '\n' then '\\' :: 'n' :: escapeControlChars rest
    else if c = '\r' then '\\' :: 'r' :: escapeControlChars rest
    else if c = '\t' then '\\' :: 't' :: escapeControlChars rest
    else c :: escapeControlChars rest

/-- `formatAsObjectKey`: identifier-safe keys are kept, others are escaped
and single-quoted. -/
def formatAsObjectKey (key : String) : String :=
  if isJsIdentifier key then key
  else "'" ++ String.mk (escapeControlChars (escapeBackslashQuote key.data)) ++ "'"

/-- One character of `JSON.stringify` string escaping. -/
def jsonEscapeChar (c : Char) : List Char :=
  if c = '"' then ['\\', '"']
  else if c = '\\' then ['\\', '\\']
  else if c = '\n' then ['\\', 'n']
  else if c = '\r' then ['\\', 'r']
  else if c = '\t' then ['\\', 't']
  else if c = '\x08' then ['\\', 'b']
  else if c = '\x0c' then ['\\', 'f']
  else [c]

/-- `JSON.stringify` of a string (double-quoted, escaped). -/
def jsonStringifyString (s : String) : String :=
  "\"" ++ String.mk (s.data.flatMap jsonEscapeChar) ++ "\""

/-- The local `indent` closure of `formatValueAsPOJO`:
`input.split('\n').join('\n' + indentation)`. -/
def pojoIndent (indentation : String) (input : String) : String :=
  String.intercalate ("\n" ++ indentation) (jsSplitOn input "\n")

/-- `s.replace(/'/g, '\\\'')`. -/
def escapeSingleQuotes : List Char → List Char
  | [] => []
  | c :: rest =>
    if c = '\'' then '\\' :: '\'' :: escapeSingleQuotes rest
    else c :: escapeSingleQuotes rest

/-- Drop the first and last character (`substr(1, length - 2)` on a
double-quoted string). -/
def stripOuterChars (s : String) : String :=
  String.mk ((s.data.drop 1).dropLast)

mutual

/-- `formatValueAsPOJO(value, indentation)`.  Note that the recursive calls
in the source do not forward `indentation`, so nested values always use the
default four spaces. -/
def formatValueAsPOJO (value : JsonValue) (indentation : String) : String :=
  match value with
  | .null => "null"
  | .bool b => if b then "true" else "false"
  | .num n => toString n
  | .nan => "NaN"
  | .inf => "Infinity"
  | .negInf => "-Infinity"
  | .str s =>
    let jsonString := String.mk (escapeSingleQuotes (jsonStringifyString s).data)
    "'" ++ stripOuterChars jsonString ++ "'"
  | .arr [] => "[]"
  | .arr (v :: vs) =>
    "[\n    " ++
      String.intercalate (",\n" ++ indentation)
        ((formatPOJOList (v :: vs)).map (pojoIndent indentation)) ++
      "\n]"
  | .obj [] => "\x7b \x7d"
  | .obj (f :: fs) =>
    "\x7b\n    " ++
      String.intercalate ",\n    "
        ((formatPOJOFields (f :: fs)).map
          (fun kv => formatAsObjectKey kv.1 ++ ": " ++ pojoIndent indentation kv.2)) ++
      "\n\x7d"

/-- Render the elements of an array value (always with the default
indentation, as in the source). -/
def formatPOJOList : List JsonValue → List String
  | [] => []
  | v :: rest => formatValueAsPOJO v "    " :: formatPOJOList rest

/-- Render the values of an object value (always with the default
indentation, as in the source). -/
def formatPOJOFields : List (String × JsonValue) → List (String × String)
  | [] => []
  | (k, v) :: rest => (k, formatValueAsPOJO v "    ") :: formatPOJOFields rest

end

mutual

/-- `JSON.stringify(value, null, indent)` with a non-empty indent string;
`curr` is the indentation accumulated so far. -/
def jsonStringifyPretty (indent curr : String) : JsonValue → String
  | .null => "null"
  | .bool b => if b then "true" else "false"
  | .num n => toString n
  | .nan => "null"
  | .inf => "null"
  | .negInf => "null"
  | .str s => jsonStringifyString s
  | .arr [] => "[]"
  | .arr (v :: vs) =>
    "[\n" ++
      String.intercalate ",\n"
        ((jsonStringifyPrettyList indent (curr ++ indent) (v :: vs)).map
          (fun t => curr ++ indent ++ t)) ++
      "\n" ++ curr ++ "]"
  | .obj [] => "\x7b\x7d"
  | .obj (f :: fs) =>
    "\x7b\n" ++
      String.intercalate ",\n"
        ((jsonStringifyPrettyFields indent (curr ++ indent) (f :: fs)).map
          (fun kv => curr ++ indent ++ jsonStringifyString kv.1 ++ ": " ++ kv.2)) ++
      "\n" ++ curr ++ "\x7d"

def jsonStringifyPrettyList (indent curr : String) : List JsonValue → List String
  | [] => []
  | v :: rest =>
    jsonStringifyPretty indent curr v :: jsonStringifyPrettyList indent curr rest

def jsonStringifyPrettyFields (indent curr : String) :
    List (String × JsonValue) → List (String × String)
  | [] => []
  | (k, v) :: rest =>
    (k, jsonStringifyPretty indent curr v) :: jsonStringifyPrettyFields indent curr rest

end

mutual

/-- Compact `JSON.stringify(value)` (used when the indent string is empty). -/
def jsonStringifyCompact : JsonValue → String
  | .null => "null"
  | .bool b => if b then "true" else "false"
  | .num n => toString n
  | .nan => "null"
  | .inf => "null"
  | .negInf => "null"
  | .str s => jsonStringifyString s
  | .arr vs => "[" ++ String.intercalate "," (jsonStringifyCompactList vs) ++ "]"
  | .obj fs =>
    "\x7b" ++
      String.intercalate ","
        ((jsonStringifyCompactFields fs).map
          (fun kv => jsonStringifyString kv.1 ++ ":" ++ kv.2)) ++
      "\x7d"

def jsonStringifyCompactList : List JsonValue → List String
  | [] => []
  | v :: rest => jsonStringifyCompact v :: jsonStringifyCompactList rest

def jsonStringifyCompactFields : List (String × JsonValue) → List (String × String)
  | [] => []
  | (k, v) :: rest => (k, jsonStringifyCompact v) :: jsonStringifyCompactFields rest

end

/-- `JSON.stringify(value, null, indentation)` as used by `generateJsDoc`. -/
def jsonStringifyWithIndent (indentation : String) (v : JsonValue) : String :=
  if indentation = "" then jsonStringifyCompact v
  else jsonStringifyPretty indentation "" v

/-! ## Parser data model (src/interfaces.ts, runtime shapes) -/

/-- A RAML query/url/form parameter.  All fields are optional because the
values come from decoded YAML, which may omit any of them.  `repeat'` and
`example'` stand for the source fields `repeat` and `example` (reserved
words in Lean). -/
structure Parameter where
  description : Option String
  type : Option String
  required : Option Bool
  repeat' : Option Bool
  default : Option String
  example' : Option String
deriving DecidableEq

/-- An empty parameter (all fields absent). -/
def Parameter.empty : Parameter := ⟨none, none, none, none, none, none⟩

/-- A decoded JSON-schema fragment (`PropertyDefinition` at runtime).  One
constructor carrying every field that the code ever reads; `ref` stands for
`$ref`, `example'`/`repeat'`/`default` for the equally named source fields.
`repeat'` and `default` exist because multipart form parameters are stored
directly as the `properties` of a synthesized object schema, so property
values can be parameter-shaped. -/
inductive RawSchema where
  | mk (type : Option String) (id : Option String) (ref : Option String)
      (items : Option RawSchema)
      (properties : Option (List (String × RawSchema)))
      (additionalProperties : Option RawSchema)
      (required : Option Bool)
      (description : Option String)
      (example' : Option JsonValue)
      (repeat' : Option Bool)
      (default : Option String) : RawSchema

def RawSchema.type : RawSchema → Option String
  | .mk t _ _ _ _ _ _ _ _ _ _ => t

/-- The `$ref` field. -/
def RawSchema.ref : RawSchema → Option String
  | .mk _ _ r _ _ _ _ _ _ _ _ => r

def RawSchema.id : RawSchema → Option String
  | .mk _ i _ _ _ _ _ _ _ _ _ => i

def RawSchema.items : RawSchema → Option RawSchema
  | .mk _ _ _ it _ _ _ _ _ _ _ => it

def RawSchema.properties : RawSchema → Option (List (String × RawSchema))
  | .mk _ _ _ _ p _ _ _ _ _ _ => p

def RawSchema.additionalProperties : RawSchema → Option RawSchema
  | .mk _ _ _ _ _ ap _ _ _ _ _ => ap

def RawSchema.required : RawSchema → Option Bool
  | .mk _ _ _ _ _ _ rq _ _ _ _ => rq

def RawSchema.description : RawSchema → Option String
  | .mk _ _ _ _ _ _ _ d _ _ _ => d

/-- The `example` field. -/
def RawSchema.example' : RawSchema → Option JsonValue
  | .mk _ _ _ _ _ _ _ _ e _ _ => e

/-- The `repeat` field (present only on parameter-shaped values). -/
def RawSchema.repeat' : RawSchema → Option Bool
  | .mk _ _ _ _ _ _ _ _ _ rp _ => rp

def RawSchema.default : RawSchema → Option String
  | .mk _ _ _ _ _ _ _ _ _ _ df => df

/-- A parameter object stored as a schema property (`formBody as any` in
`traverseRequest`). -/
def schemaOfParam (p : Parameter) : RawSchema :=
  .mk p.type none none none none none p.required p.description
    (p.example'.map JsonValue.str) p.repeat' p.default

/-- Reading the parameter fields back off a property value
(`prop.properties as any` in the multipart branch of the renderer). -/
def paramOfSchema (s : RawSchema) : Parameter :=
  { description := s.description
    type := s.type
    required := s.required
    repeat' := s.repeat'
    default := s.default
    example' := match s.example' with
      | some (.str t) => some t
      | _ => none }

/-- The shared model registry (`ModelMap`). -/
abbrev ModelMap := List (String × RawSchema)

/-- The fatal errors thrown by the parser and the renderer. -/
inductive JsError where
  /-- `unhandledCase(schema, 'type')` in `normalizeSchema`. -/
  | unhandledSchemaType (schema : RawSchema)
  /-- A JS `TypeError` from accessing a property of `undefined`. -/
  | typeErrorUndefined (accessing : String)
  /-- `No definition of URL parameter "<name>" can be found for url "<url>"`. -/
  | missingUrlParameter (paramName url : String)
  /-- `object property without id or additionalProperties: <prop>`. -/
  | objectWithoutId (prop : RawSchema)
  /-- `unhandledCase(prop)` in `renderTypescriptPropertyDefinition`. -/
  | unhandledPropertyType (prop : RawSchema)
  /-- `grouped[endpoint.method].push` with a method outside the sort order. -/
  | invalidRequestMethod (method : String)
  /-- Artifact of the fuelled normalization recursion; unreachable from
  `normalizeSchema`, whose fuel covers the whole schema tree. -/
  | outOfFuel

/-! ## Schema normalization (src/parser.ts, normalizeSchema) -/

mutual

/-- Structural size of a schema (type tags and scalar fields do not count,
so the `Object.assign({type: 'object'}, x)` copies keep their size). -/
def schemaSize : RawSchema → Nat
  | .mk _ _ _ items props ap _ _ _ _ _ =>
    1 + optSchemaSize items + optPropsSize props + optSchemaSize ap

def optSchemaSize : Option RawSchema → Nat
  | none => 0
  | some s => 1 + schemaSize s

def optPropsSize : Option (List (String × RawSchema)) → Nat
  | none => 0
  | some l => 1 + propsListSize l

def propsListSize : List (String × RawSchema) → Nat
  | [] => 0
  | (_, s) :: rest => 1 + schemaSize s + propsListSize rest

end

mutual

/-- `normalizeSchema(schema, modelMap)`, fuelled.

The recursion is driven by a `Nat` fuel so that it is structural and the
kernel can evaluate it; `schemaSize` fuel always suffices (each recursive
call strictly descends into the schema tree), so the `outOfFuel` branch is
unreachable from `normalizeSchema`.

`tyOv` materializes the `Object.assign({ type: 'object' }, x)` copies of
the source: the effective `type` tag of the copy is passed down and
installed here.  `tyOv = none` is a plain call.

The source mutates `schema` in place (`schema.items = ...`,
`schema.properties[key] = ...`) while the very same object may already sit
in `modelMap` under its id; this aliasing is modelled by re-storing the
rebuilt object under its id after the recursion. -/
def normSchemaFuel : Nat → Option (Option String) → RawSchema → ModelMap →
    Except JsError (RawSchema × ModelMap)
  | 0, _, _, _ => .error .outOfFuel
  | fuel + 1, tyOv, schema, modelMap =>
    match schema with
    | .mk ty0 id ref items props ap rq desc ex rp df =>
      let ty := tyOv.getD ty0
      if ty = some "any" ∨ ty = some "boolean" ∨ ty = some "integer" ∨
          ty = some "number" ∨ ty = some "string" then
        .ok (.mk ty id ref items props ap rq desc ex rp df, modelMap)
      else if ty = some "array" then
        match items with
        | none => .error (.typeErrorUndefined "schema.items.type")
        | some a =>
          -- `if (!arrayType.type && arrayType.$ref) Object.assign({type:'object'}, arrayType)`
          let doRepair := ¬ truthyStr a.type ∧ truthyStr a.ref
          let ov : Option (Option String) :=
            if doRepair then some (if a.type = none then some "object" else a.type)
            else none
          match normSchemaFuel fuel ov a modelMap with
          | .error e => .error e
          | .ok (ni, m') =>
            .ok (.mk ty id ref (some ni) props ap rq desc ex rp df, m')
      else if ty = some "object" then
        -- `const id = schema.$ref || schema.id || ''`
        let key := if truthyStr ref then ref.getD ""
          else if truthyStr id then id.getD "" else ""
        match lookupAL modelMap key with
        | some stored => .ok (stored, modelMap)
        | none =>
          let self : RawSchema := .mk ty id ref items props ap rq desc ex rp df
          let m0 := if truthyStr id then setAL modelMap (id.getD "") self else modelMap
          match normPropsFuel fuel props m0 with
          | .error e => .error e
          | .ok (props', m1) =>
            let apStep : Except JsError (Option RawSchema × ModelMap) :=
              match ap with
              | none => .ok (none, m1)
              | some a =>
                -- `Object.assign({ type: 'object' }, schema.additionalProperties)`
                match normSchemaFuel fuel
                    (some (if a.type = none then some "object" else a.type)) a m1 with
                | .error e => .error e
                | .ok (na, m2) => .ok (some na, m2)
            match apStep with
            | .error e => .error e
            | .ok (ap', m2) =>
              let out : RawSchema := .mk ty id ref items props' ap' rq desc ex rp df
              let mF := if truthyStr id then setAL m2 (id.getD "") out else m2
              .ok (out, mF)
      else
        .error (.unhandledSchemaType (.mk ty id ref items props ap rq desc ex rp df))

/-- The `if (schema.properties)` guard of `normalizeSchema`. -/
def normPropsFuel : Nat → Option (List (String × RawSchema)) → ModelMap →
    Except JsError (Option (List (String × RawSchema)) × ModelMap)
  | _, none, modelMap => .ok (none, modelMap)
  | 0, some _, _ => .error .outOfFuel
  | fuel + 1, some l, modelMap =>
    match normPropsListFuel fuel l modelMap with
    | .error e => .error e
    | .ok (l', m') => .ok (some l', m')

/-- The `for (let key of Object.keys(schema.properties))` loop: normalize
every property in place, threading the registry. -/
def normPropsListFuel : Nat → List (String × RawSchema) → ModelMap →
    Except JsError (List (String × RawSchema) × ModelMap)
  | _, [], modelMap => .ok ([], modelMap)
  | 0, _ :: _, _ => .error .outOfFuel
  | fuel + 1, (k, v) :: rest, modelMap =>
    match normSchemaFuel fuel none v modelMap with
    | .error e => .error e
    | .ok (v', m1) =>
      match normPropsListFuel fuel rest m1 with
      | .error e => .error e
      | .ok (rest', m2) => .ok ((k, v') :: rest', m2)

end

/-- The public `normalizeSchema` entry point (a plain call with sufficient
fuel). -/
def normalizeSchema (schema : RawSchema) (modelMap : ModelMap) :
    Except JsError (RawSchema × ModelMap) :=
  normSchemaFuel (schemaSize schema) none schema modelMap

/-- Length bound used in termination arguments. -/
theorem length_dropWhile_le {α : Type} (p : α → Bool) (l : List α) :
    (l.dropWhile p).length ≤ l.length := by
  induction l with
  | nil => simp [List.dropWhile]
  | cons c rest ih =>
    simp only [List.dropWhile]
    split
    · simpa using Nat.le_succ_of_le ih
    · simp

/-! ## Endpoints and RAML input shapes -/

/-- A parsed request body (`Endpoint.requestBody`). -/
structure RequestBody where
  mimeType : String
  example' : Option JsonValue
  schema : Option RawSchema

/-- A parsed response. -/
structure Response where
  description : Option String
  responseBodySchema : Option RawSchema
  responseBodyExample : Option JsonValue

/-- A parsed endpoint.  `responses` is a JS object keyed by numeric status
codes, modelled as an association list held in ascending key order (the
iteration order of integer-like keys in JS). -/
structure Endpoint where
  method : String
  url : String
  description : Option String
  urlParameters : Option (List (String × Parameter))
  queryParameters : Option (List (String × Parameter))
  requestBody : Option RequestBody
  responses : List (Nat × Response)

instance : Inhabited Endpoint := ⟨⟨"", "", none, none, none, none, []⟩⟩

/-- The output of `parseRAML`. -/
structure ParsedMeshRAML where
  baseUri : Option String
  endpoints : List Endpoint
  models : ModelMap
  version : Option String

/-- The decoded `application/json` body of a request or response in the
RAML.  `schema` and `example'` hold the result of `JSON.parse` on the
embedded text (the decode itself is outside the embedded fragment). -/
structure JsonBodyRaml where
  schema : Option RawSchema
  example' : Option JsonValue

/-- The decoded `multipart/form-data` body. -/
structure MultipartRaml where
  formParameters : Option (List (String × Parameter))

/-- A decoded `body` hash. -/
structure BodyRaml where
  applicationJson : Option JsonBodyRaml
  multipartFormData : Option MultipartRaml

/-- One decoded response entry of the RAML. -/
structure ResponseYamlRaml where
  description : Option String
  body : Option BodyRaml

/-- A decoded request fragment (`RequestSchemaInRAML`). -/
structure RequestSchemaRaml where
  description : Option String
  queryParameters : Option (List (String × Parameter))
  body : Option BodyRaml
  responses : Option (List (Nat × ResponseYamlRaml))

/-- A decoded child path: its `uriParameters` plus all other keys that may
name request methods. -/
structure ChildPathRaml where
  uriParameters : Option (List (String × Parameter))
  entries : List (String × RequestSchemaRaml)

/-- A decoded top-level path: its keys that may be nested path segments. -/
structure PathRaml where
  children : List (String × ChildPathRaml)

/-- A decoded RAML document: `baseUri`, `version`, and the top-level keys
(those beginning with `/` are path segments). -/
structure ApiRaml where
  baseUri : Option String
  version : Option String
  paths : List (String × PathRaml)

/-- Numeric JS object keys iterate in ascending order. -/
def numericKeys {α : Type} (m : List (Nat × α)) : List Nat :=
  jsStableSort (fun a b => a ≤ b) (m.map Prod.fst)

def lookupNat {α : Type} (m : List (Nat × α)) (k : Nat) : Option α :=
  (m.find? (fun p => p.1 = k)).map Prod.snd

def setNat {α : Type} (m : List (Nat × α)) (k : Nat) (v : α) : List (Nat × α) :=
  if (lookupNat m k).isSome then m.map (fun p => if p.1 = k then (k, v) else p)
  else m ++ [(k, v)]

/-! ## Response and request traversal (src/parser.ts) -/

/-- The body of the `for (let responseCode of Object.keys(responseMap || {}))`
loop of `traverseResponseSchemas`: build one `Response`. -/
def traverseOneResponse (responseYaml : ResponseYamlRaml) (models : ModelMap) :
    Except JsError (Response × ModelMap) :=
  let responseBody := responseYaml.body.bind (fun b => b.applicationJson)
  let withExample : Response :=
    { description := responseYaml.description
      responseBodySchema := none
      responseBodyExample := responseBody.bind (fun b => b.example') }
  match responseBody.bind (fun b => b.schema) with
  | none => .ok (withExample, models)
  | some schema =>
    match normalizeSchema schema models with
    | .error e => .error e
    | .ok (normalized, models') =>
      .ok ({ withExample with responseBodySchema := some normalized }, models')

/-- `traverseResponseSchemas(responseMap, models)`. -/
def traverseResponseSchemas (responseMap : Option (List (Nat × ResponseYamlRaml)))
    (models : ModelMap) : Except JsError (List (Nat × Response) × ModelMap) :=
  let m := responseMap.getD []
  (numericKeys m).foldlM
    (fun (st : List (Nat × Response) × ModelMap) code =>
      match lookupNat m code with
      | none => .ok st -- unreachable: `code` is a key of `m`
      | some responseYaml =>
        match traverseOneResponse responseYaml st.2 with
        | .error e => .error e
        | .ok (result, models') => .ok (setNat st.1 code result, models'))
    ([], models)

/-- `traverseRequest(requestSchema, methodName, url, urlParams, models)`. -/
def traverseRequest (requestSchema : RequestSchemaRaml) (methodName : String)
    (url : String) (urlParams : Option (List (String × Parameter)))
    (models : ModelMap) : Except JsError (Endpoint × ModelMap) :=
  let base : Endpoint :=
    { method := jsToUpperStr methodName
      url := url
      description := requestSchema.description
      urlParameters := urlParams
      queryParameters := requestSchema.queryParameters
      requestBody := none
      responses := [] }
  let jsonBody := requestSchema.body.bind (fun b => b.applicationJson)
  let formBody := requestSchema.body.bind
    (fun b => ((b.multipartFormData.getD ⟨none⟩).formParameters))
  let bodyStep : Except JsError (Option RequestBody × ModelMap) :=
    match jsonBody with
    | some jb =>
      match jb.schema with
      | none =>
        .ok (some { mimeType := "application/json", example' := jb.example', schema := none },
          models)
      | some schema =>
        match normalizeSchema schema models with
        | .error e => .error e
        | .ok (normalized, models') =>
          let rb : RequestBody :=
            { mimeType := "application/json", example' := jb.example', schema := some normalized }
          .ok (some rb, models')
    | none =>
      match formBody with
      | some form =>
        let formSchema : RawSchema :=
          .mk (some "object") none none none
            (some (form.map (fun p => (p.1, schemaOfParam p.2)))) none
            (some (form.any (fun p => truthyBool p.2.required))) none none none none
        let rb : RequestBody :=
          { mimeType := "multipart/form-data", example' := none, schema := some formSchema }
        .ok (some rb, models)
      | none => .ok (none, models)
  match bodyStep with
  | .error e => .error e
  | .ok (requestBody, models') =>
    match traverseResponseSchemas requestSchema.responses models' with
    | .error e => .error e
    | .ok (responses, models'') =>
      .ok ({ base with requestBody := requestBody, responses := responses }, models'')

/-! ## URL derivation and URI-parameter inheritance (src/parser.ts) -/

/-- `url.replace(/\/+/, '/')` (no `g` flag): replace only the first maximal
run of slashes by a single slash. -/
def replaceFirstSlashRunAux : List Char → List Char
  | [] => []
  | '/' :: rest => '/' :: rest.dropWhile (fun c => c = '/')
  | c :: rest => c :: replaceFirstSlashRunAux rest

def replaceFirstSlashRun (s : String) : String :=
  String.mk (replaceFirstSlashRunAux s.data)

/-- The URL computed for a (parentPath, childPath) pair:
`(pathName + (childPathName === '/' ? '' : childPathName)).replace(/\/+/, '/')`. -/
def deriveUrl (pathName childPathName : String) : String :=
  replaceFirstSlashRun (pathName ++ (if childPathName = "/" then "" else childPathName))

/-- Collapsing **every** run of consecutive slashes (the flag records
whether the previous character was a slash).  Modelled from the spec's
words ("collapsing any run of consecutive slashes into one"), for
comparison with the source behaviour `replaceFirstSlashRun`. -/
def collapseAllSlashRunsAux : List Char → Bool → List Char
  | [], _ => []
  | c :: rest, inRun =>
    if c = '/' then
      if inRun then collapseAllSlashRunsAux rest true
      else '/' :: collapseAllSlashRunsAux rest true
    else c :: collapseAllSlashRunsAux rest false

def collapseAllSlashRuns (s : String) : String :=
  String.mk (collapseAllSlashRunsAux s.data false)

def isParamChar (c : Char) : Bool :=
  ('a' ≤ c && c ≤ 'z') || ('A' ≤ c && c ≤ 'Z') || ('0' ≤ c && c ≤ '9')

/-- Automaton equivalent to repeated `exec` of `/\{([a-zA-Z0-9]+)\}/g`:
returns every placeholder name together with the exclusive end index of its
closing brace.  `cand` holds the reversed name characters collected since
the most recent `{`. -/
def placeholdersAux : List Char → Nat → Option (List Char) → List (String × Nat)
  | [], _, _ => []
  | c :: rest, i, cand =>
    if c = '{' then placeholdersAux rest (i + 1) (some [])
    else
      match cand with
      | none => placeholdersAux rest (i + 1) none
      | some revName =>
        if c = '}' then
          if revName.isEmpty then placeholdersAux rest (i + 1) none
          else (String.mk revName.reverse, i + 1) :: placeholdersAux rest (i + 1) none
        else if isParamChar c then placeholdersAux rest (i + 1) (some (c :: revName))
        else placeholdersAux rest (i + 1) none

/-- All `{name}` placeholders of a URL with their end positions. -/
def findPlaceholders (url : String) : List (String × Nat) :=
  placeholdersAux url.data 0 none

/-- Automaton equivalent to `/\{[^\}]+\}/.test(url)`: is there a `{`,
followed by at least one non-`}` character, followed by `}`?  The state
counts the non-`}` characters seen since the first unclosed `{`. -/
def loosePlaceholderAux : List Char → Option Nat → Bool
  | [], _ => false
  | c :: rest, none =>
    if c = '{' then loosePlaceholderAux rest (some 0)
    else loosePlaceholderAux rest none
  | c :: rest, some k =>
    if c = '}' then
      if k > 0 then true else loosePlaceholderAux rest none
    else loosePlaceholderAux rest (some (k + 1))

def hasLoosePlaceholder (url : String) : Bool :=
  loosePlaceholderAux url.data none

/-- One iteration of the `while ((matches = rx.exec(endpoint.url)))` loop of
`addMissingUriParameters`, for the placeholder `ph = (paramName, endIndex)`
of endpoint `i`.  `byUrl` maps parameterized URLs to endpoint indices (the
JS hash holds object references; indices model reference identity, because
earlier iterations may already have replaced an endpoint's parameters). -/
def resolvePlaceholder (byUrl : List (String × Nat)) (eps : List Endpoint)
    (i : Nat) (ph : String × Nat) : Except JsError (List Endpoint) :=
  match eps.get? i with
  | none => .ok eps -- unreachable: `i` indexes `eps`
  | some e =>
    let ownHas : Bool := match e.urlParameters with
      | none => false
      | some ps => (lookupAL ps ph.1).isSome
    if ownHas then .ok eps
    else
      -- part of the url that leads to the parameter, e.g. '/groups/{groupUuid}'
      let urlPart := String.mk (e.url.data.take ph.2)
      match lookupAL byUrl urlPart with
      | none => .error (.missingUrlParameter ph.1 e.url)
      | some j =>
        match eps.get? j with
        | none => .error (.missingUrlParameter ph.1 e.url) -- unreachable
        | some parent =>
          match parent.urlParameters with
          | none => .error (.missingUrlParameter ph.1 e.url)
          | some parentParams =>
            if (lookupAL parentParams ph.1).isSome then
              let merged := jsAssign (jsAssign [] parentParams) (e.urlParameters.getD [])
              .ok (eps.set i { e with urlParameters := some merged })
            else .error (.missingUrlParameter ph.1 e.url)

/-- Process all placeholders of endpoint `i` in order. -/
def resolveEndpoint (byUrl : List (String × Nat)) (eps : List Endpoint)
    (i : Nat) : Except JsError (List Endpoint) :=
  match eps.get? i with
  | none => .ok eps -- unreachable
  | some e => (findPlaceholders e.url).foldlM (fun acc ph => resolvePlaceholder byUrl acc i ph) eps

/-- `addMissingUriParameters(endpoints)`: endpoints with parameterized URLs
are indexed by URL, then every endpoint is processed in ascending order of
URL length (stable). -/
def addMissingUriParameters (endpoints : List Endpoint) :
    Except JsError (List Endpoint) :=
  let byUrl : List (String × Nat) :=
    endpoints.enum.foldl
      (fun acc p => if hasLoosePlaceholder p.2.url then setAL acc p.2.url p.1 else acc) []
  let order : List Nat :=
    (jsStableSort (fun a b => a.2.url.length ≤ b.2.url.length) endpoints.enum).map Prod.fst
  order.foldlM (fun eps i => resolveEndpoint byUrl eps i) endpoints

/-! ## Endpoint discovery (src/parser.ts, findModelsAndEndpoints) -/

/-- The fixed set of request-method keys. -/
def requestMethods : List String := ["delete", "get", "post", "patch", "put"]

/-- `findModelsAndEndpoints(apiRaml)`: walk the top-level path keys, the
nested child path keys and the method keys, traverse each request, then run
the URI-parameter inheritance pass. -/
def findModelsAndEndpoints (apiRaml : ApiRaml) :
    Except JsError (List Endpoint × ModelMap) := do
  let paths := apiRaml.paths.filter (fun p => jsStartsWith p.1 "/")
  let (endpoints, models) ← paths.foldlM
    (fun (st : List Endpoint × ModelMap) path => do
      let childPaths := path.2.children.filter (fun p => jsStartsWith p.1 "/")
      childPaths.foldlM
        (fun (st : List Endpoint × ModelMap) child => do
          let methods := child.2.entries.filter (fun e => requestMethods.contains e.1)
          methods.foldlM
            (fun (st : List Endpoint × ModelMap) meth => do
              let url := deriveUrl path.1 child.1
              let (parsedRequest, models') ←
                traverseRequest meth.2 meth.1 url child.2.uriParameters st.2
              pure (st.1 ++ [parsedRequest], models'))
            st)
        st)
    ([], [])
  let endpoints' ← addMissingUriParameters endpoints
  pure (endpoints', models)

/-- `parseRAML` on an already-decoded document (the string entry point only
adds the external YAML decode). -/
def parseRAML (apiRaml : ApiRaml) : Except JsError ParsedMeshRAML := do
  let (endpoints, models) ← findModelsAndEndpoints apiRaml
  pure { baseUri := apiRaml.baseUri
         endpoints := endpoints
         models := models
         version := apiRaml.version }

/-! ## Renderer options (src/renderers/typescript-renderer.ts) -/

structure RendererOptions where
  addEndpointList : Bool
  emitIntegerAs : String
  emitInterfacesAsReadonly : Bool
  emitRequestExamples : Bool
  emitRequestURLs : Bool
  emitResponseExamples : Bool
  endpointInterface : String
  indentation : String
  interfacePrefix : String
  interfaceSuffix : String
  maxLineLength : Int
  methodSortOrder : List String
  sortInterfaces : Bool
  sortKeys : Bool

def defaultOptions : RendererOptions :=
  { addEndpointList := false
    emitIntegerAs := "Integer"
    emitInterfacesAsReadonly := false
    emitRequestExamples := true
    emitRequestURLs := false
    emitResponseExamples := false
    endpointInterface := "ApiEndpoints"
    indentation := "    "
    interfacePrefix := ""
    interfaceSuffix := ""
    maxLineLength := 100
    methodSortOrder := ["GET", "POST", "PATCH", "PUT", "DELETE"]
    sortInterfaces := true
    sortKeys := true }

/-- An endpoint/status-code/response triple (`CombinedResponseInfo`). -/
structure CombinedResponseInfo where
  endpoint : Endpoint
  statusCode : Nat
  response : Response

/-! ## Structural equality (models JS `===` on decoded, tree-shaped data) -/

mutual

def jsonEq : JsonValue → JsonValue → Bool
  | .null, .null => true
  | .bool a, .bool b => a = b
  | .num a, .num b => a = b
  | .nan, .nan => true
  | .inf, .inf => true
  | .negInf, .negInf => true
  | .str a, .str b => a = b
  | .arr a, .arr b => jsonListEq a b
  | .obj a, .obj b => jsonFieldsEq a b
  | _, _ => false

def jsonListEq : List JsonValue → List JsonValue → Bool
  | [], [] => true
  | a :: as', b :: bs => jsonEq a b && jsonListEq as' bs
  | _, _ => false

def jsonFieldsEq : List (String × JsonValue) → List (String × JsonValue) → Bool
  | [], [] => true
  | (k1, v1) :: as', (k2, v2) :: bs => k1 = k2 && jsonEq v1 v2 && jsonFieldsEq as' bs
  | _, _ => false

end

def jsonOptEq : Option JsonValue → Option JsonValue → Bool
  | none, none => true
  | some a, some b => jsonEq a b
  | _, _ => false

mutual

def schemaEq : RawSchema → RawSchema → Bool
  | .mk t1 i1 r1 it1 p1 ap1 rq1 d1 e1 rp1 df1, .mk t2 i2 r2 it2 p2 ap2 rq2 d2 e2 rp2 df2 =>
    t1 = t2 && i1 = i2 && r1 = r2 && schemaOptEq it1 it2 && schemaOptListEq p1 p2 &&
      schemaOptEq ap1 ap2 && rq1 = rq2 && d1 = d2 && jsonOptEq e1 e2 && rp1 = rp2 && df1 = df2

def schemaOptEq : Option RawSchema → Option RawSchema → Bool
  | none, none => true
  | some a, some b => schemaEq a b
  | _, _ => false

def schemaOptListEq :
    Option (List (String × RawSchema)) → Option (List (String × RawSchema)) → Bool
  | none, none => true
  | some a, some b => schemaListEq a b
  | _, _ => false

def schemaListEq : List (String × RawSchema) → List (String × RawSchema) → Bool
  | [], [] => true
  | (k1, v1) :: as', (k2, v2) :: bs => k1 = k2 && schemaEq v1 v2 && schemaListEq as' bs
  | _, _ => false

end

/-! ## Model names and jsdoc synthesis -/

def isLowerAlpha (c : Char) : Bool := 'a' ≤ c && c ≤ 'z'

/-- Strip the greedy `([a-z]+:)*` repetition: `committed` is the suffix at
the last completed segment, `curseg` the letters collected since. -/
def stripSegsAux : List Char → List Char → List Char → List Char
  | [], committed, _ => committed
  | c :: rest, committed, curseg =>
    if isLowerAlpha c then stripSegsAux rest committed (c :: curseg)
    else if c = ':' ∧ ¬ curseg.isEmpty then stripSegsAux rest rest []
    else committed

/-- `schemaRef.replace(/^urn:jsonschema:([a-z]+:)*/, '')`. -/
def stripUrnPrefix (schemaRef : String) : String :=
  if jsStartsWith schemaRef "urn:jsonschema:" then
    let rest := schemaRef.data.drop 15
    String.mk (stripSegsAux rest rest [])
  else schemaRef

/-- `formatModelName`: wrap the short name in the configured prefix/suffix. -/
def formatModelName (opts : RendererOptions) (shortName fullSchemaRef : String) : String :=
  opts.interfacePrefix ++ shortName ++ opts.interfaceSuffix

/-- `generateModelName(schemaRef)`. -/
def generateModelName (opts : RendererOptions) (schemaRef : String) : String :=
  formatModelName opts (stripUrnPrefix schemaRef) schemaRef

/-- The `example` argument of `generateJsDoc`: the callers pass either text
or a decoded JSON value. -/
inductive JsDocExample where
  | str (s : String)
  | json (v : JsonValue)

/-- A schema `example` value as seen by `generateJsDoc` (a decoded JSON
string is a JS string). -/
def jsdocExampleOfJson : JsonValue → JsDocExample
  | .str s => .str s
  | v => .json v

def truthyExample : Option JsDocExample → Bool
  | none => false
  | some (.str s) => s ≠ ""
  | some (.json v) => jsTruthyValue v

/-- Replace the first `(\. ?)|(\n)|$` match of `description` by
`` ` (default: ...)$1$2` ``: splice `ins` in after the first sentence end
(or newline, or at the end). -/
def spliceDefaultAux (ins : List Char) : List Char → List Char
  | [] => ins
  | '.' :: ' ' :: rest => ins ++ '.' :: ' ' :: rest
  | '.' :: rest => ins ++ '.' :: rest
  | '\n' :: rest => ins ++ '\n' :: rest
  | c :: rest => c :: spliceDefaultAux ins rest

/-- `description.replace(/([^ ])\*|\*([^ ])/g, '$1_$2')`. -/
def sanitizeStarsAux : List Char → List Char
  | c1 :: c2 :: rest =>
    if c1 ≠ ' ' ∧ c2 = '*' then c1 :: '_' :: sanitizeStarsAux rest
    else if c1 = '*' ∧ c2 ≠ ' ' then '_' :: c2 :: sanitizeStarsAux rest
    else c1 :: sanitizeStarsAux (c2 :: rest)
  | l => l

/-- `description.replace(/\*+\//g, '/')`: `k` pending asterisks collapse
into the following slash. -/
def starSlashAux : List Char → Nat → List Char
  | [], k => List.replicate k '*'
  | c :: rest, k =>
    if c = '*' then starSlashAux rest (k + 1)
    else if c = '/' then '/' :: starSlashAux rest 0
    else List.replicate k '*' ++ c :: starSlashAux rest 0

/-- The comment sanitization of `generateJsDoc` (issue #10). -/
def sanitizeDescription (s : String) : String :=
  String.mk (starSlashAux (sanitizeStarsAux s.data) 0)

/-- `indentation.replace(/  $/, '')`. -/
def stripTrailingTwoSpaces (s : String) : String :=
  if jsEndsWith s "  " then String.mk (s.data.dropLast.dropLast) else s

/-- `generateJsDoc({description, defaultValue, example, responses})`. -/
def generateJsDoc (opts : RendererOptions) (description : Option String)
    (defaultValue : Option JsonValue) (example' : Option JsDocExample)
    (responses : Option (List CombinedResponseInfo)) : List String :=
  let responses := match responses with
    | some [] => none
    | r => r
  if ¬ truthyStr description ∧ ¬ truthyExample example' ∧ responses.isNone then []
  else
    let description := match defaultValue, description with
      | some dv, some d =>
        if d ≠ "" then
          let defaultText := formatValueAsPOJO dv "    "
          some (String.mk (spliceDefaultAux (" (default: " ++ defaultText ++ ")").data d.data))
        else description
      | _, _ => description
    let description := match description with
      | some d => if d ≠ "" then some (sanitizeDescription d) else description
      | none => none
    let maxLineLength : Int :=
      opts.maxLineLength - 4 * (opts.indentation.length : Int) - 3
    let descriptionLines := match description with
      | some d => if d ≠ "" then wordWrap d maxLineLength else []
      | none => []
    if ¬ truthyExample example' ∧ truthyStr description ∧ descriptionLines.length = 1 ∧
        responses.isNone then
      ["/** " ++ description.getD "" ++ " */"]
    else
      let lines : List String := if truthyStr description then descriptionLines else []
      let lines := lines ++ if truthyStr description ∧ responses.isSome then [""] else []
      let lines := lines ++ match responses with
        | none => []
        | some [r] => ["Returned for `" ++ r.endpoint.method ++ " " ++ r.endpoint.url ++ "`"]
        | some rs =>
          let listIndentation := stripTrailingTwoSpaces opts.indentation
          "Returned for:" ::
            rs.map (fun r =>
              listIndentation ++ "- `" ++ r.endpoint.method ++ " " ++ r.endpoint.url ++ "`")
      let lines := lines ++
        if (truthyStr description ∨ responses.isSome) ∧ truthyExample example' then [""] else []
      let lines := lines ++ match example' with
        | some ex =>
          if truthyExample (some ex) then
            let exText := match ex with
              | .str s => s
              | .json v => jsonStringifyWithIndent opts.indentation v
            "@example" :: jsSplitOn exText "\n"
          else []
        | none => []
      ["/**"] ++ lines.map (fun line => if line ≠ "" then " * " ++ line else " *") ++ [" */"]

/-- `this.indent(text)`. -/
def indentLines (opts : RendererOptions) (text : List String) : List String :=
  text.map (fun line => if line ≠ "" then opts.indentation ++ line else "")

/-! ## Parameter formatting -/

/-- `s.replace(/^"(.+)"$/, '$1')`: strip surrounding double quotes when the
whole string is quoted with at least one inner character (`.` does not match
a newline, so a multiline inner part is left unchanged). -/
def stripQuotes (s : String) : String :=
  let inner := (s.data.drop 1).dropLast
  if s.length ≥ 3 ∧ jsStartsWith s "\"" ∧ jsEndsWith s "\"" ∧ inner.all (fun c => c ≠ '\n') then
    String.mk inner
  else s

/-- `Number(s)` restricted to the integer literals this pipeline meets:
whitespace-trimmed, empty means `0`, otherwise an optionally signed digit
run; anything else is `NaN`. -/
def jsToNumber (s : String) : JsonValue :=
  let t := jsTrim s
  if t = "" then .num 0
  else
    let (sign, ds) : Int × List Char := match t.data with
      | '-' :: rest => (-1, rest)
      | '+' :: rest => (1, rest)
      | l => (1, l)
    if ¬ ds.isEmpty ∧ ds.all Char.isDigit then
      .num (sign * (ds.foldl (fun acc c => acc * 10 + ((c.toNat : Int) - 48)) 0))
    else .nan

/-- `String(n)` for the number values produced by `jsToNumber`. -/
def jsNumberToString : JsonValue → String
  | .num n => toString n
  | .nan => "NaN"
  | .inf => "Infinity"
  | .negInf => "-Infinity"
  | _ => ""

/-- `s.split(pat).join(rep)`, the effect of a global replace of the literal
pattern `pat`. -/
def replaceAllSubstring (s pat rep : String) : String :=
  String.intercalate rep (jsSplitOn s pat)

/-- The body of the `for (let paramName of Object.keys(paramMap))` loop of
`formatParameters` (before the surrounding `this.indent`). -/
def formatOneParameter (opts : RendererOptions) (paramName : String)
    (param : Parameter) : List String :=
  let multilineStringExample : Bool :=
    param.type = some "string" && (match param.example' with
      | some e => e ≠ "" && e.data.contains '\n'
      | none => false)
  let (defaultValue, exampleText) : Option JsonValue × String :=
    if param.type = some "number" then
      ((match param.default with
        | none => none
        | some d => if d = "" then some (.str "") else some (jsToNumber (stripQuotes d))),
       (match param.example' with
        | none => ""
        | some e => if e = "" then "" else jsNumberToString (jsToNumber (stripQuotes e))))
    else if param.type = some "boolean" then
      ((match param.default with
        | none => none
        | some d => if d = "" then some (.str "") else some (.bool (stripQuotes d = "true"))),
       (match param.example' with
        | none => ""
        | some e => if e = "" then "" else stripQuotes e))
    else if multilineStringExample then
      (param.default.map .str,
       String.intercalate "\n"
         ((jsSplitOn (param.example'.getD "") "\n").map (fun line => "    " ++ jsonStringifyString line)))
    else
      (param.default.map .str,
       (match param.example' with
        | none => ""
        | some e => jsonStringifyString e))
  let description := param.description
  let example' := if opts.emitRequestExamples then exampleText else ""
  let keyText := formatAsObjectKey paramName ++ (if truthyBool param.required then "" else "?")
  let typeText :=
    if truthyBool param.repeat' then jsStrOf param.type ++ " | " ++ jsStrOf param.type ++ "[]"
    else jsStrOf param.type
  let jsdoc := generateJsDoc opts description defaultValue (some (.str example')) none
  let typeText := if param.type = some "file" then "File" else typeText
  let jsdoc :=
    if multilineStringExample then
      (replaceAllSubstring (String.intercalate "\n" jsdoc)
        " *\n * @example\n * " " * @example\n * ") |> (jsSplitOn · "\n")
    else
      (replaceAllSubstring (String.intercalate "\n" jsdoc)
        " *\n * @example\n * " " * @example ") |> (jsSplitOn · "\n")
  jsdoc ++ [keyText ++ ": " ++ typeText ++ ";"]

/-- `formatParameters(paramMap, resultKey?)`. -/
def formatParameters (opts : RendererOptions)
    (paramMap : Option (List (String × Parameter))) (resultKey : Option String) :
    List String :=
  let empty := match paramMap with
    | none => true
    | some pm => pm.isEmpty
  if empty then
    match resultKey with
    | some rk => [rk ++ "?: \x7b \x7d;"]
    | none => ["\x7b \x7d"]
  else
    let pm := paramMap.getD []
    let optional := ¬ pm.any (fun p => truthyBool p.2.required)
    let firstLine := match resultKey with
      | some rk => rk ++ (if optional then "?" else "") ++ ": \x7b"
      | none => "\x7b"
    let paramLines := pm.flatMap (fun p => indentLines opts (formatOneParameter opts p.1 p.2))
    let lastLine := match resultKey with
      | some _ => "\x7d;"
      | none => "\x7d"
    firstLine :: paramLines ++ [lastLine]

/-! ## Type rendering -/

/-- `renderTypescriptPropertyDefinition(prop)`, fuelled (the recursion into
`items` and `additionalProperties` is driven by a `Nat` fuel so that it is
structural; `schemaSize` fuel always suffices). -/
def renderTsPropFuel (opts : RendererOptions) : Nat → RawSchema → Except JsError String
  | 0, _ => .error .outOfFuel
  | fuel + 1, prop =>
    match prop with
    | .mk ty id ref items props ap _rq _desc _ex _rp _df =>
      if ty = some "any" ∨ ty = some "boolean" ∨ ty = some "number" ∨ ty = some "string" then
        .ok (ty.getD "")
      else if ty = some "integer" then
        .ok (if opts.emitIntegerAs ≠ "" then opts.emitIntegerAs else "number")
      else if ty = some "array" then
        match items with
        | none => .error (.typeErrorUndefined "prop.items.type")
        | some it =>
          match renderTsPropFuel opts fuel it with
          | .error e => .error e
          | .ok arrayType =>
            .ok (if isJsIdentifier arrayType then arrayType ++ "[]"
              else "Array<" ++ arrayType ++ ">")
      else if ty = some "object" then
        -- `generateModelName(prop.id || prop.$ref || '')`
        let modelName := generateModelName opts
          (if truthyStr id then id.getD "" else if truthyStr ref then ref.getD "" else "")
        if modelName ≠ "" ∧ (truthyStr id ∨ truthyStr ref) then .ok modelName
        else
          match ap with
          | some a =>
            match renderTsPropFuel opts fuel a with
            | .error e => .error e
            | .ok hashType => .ok ("\x7b [key: string]: " ++ hashType ++ " \x7d")
          | none =>
            match props with
            | some pl =>
              -- POST bodies with multipart/form-data define an inline model
              if pl.all (fun p => p.2.repeat'.isSome) then
                .ok (String.intercalate "\n"
                  (formatParameters opts (some (pl.map (fun p => (p.1, paramOfSchema p.2)))) none))
              else .error (.objectWithoutId prop)
            | none => .error (.objectWithoutId prop)
      else .error (.unhandledPropertyType prop)

/-- `renderTypescriptPropertyDefinition(prop)` (a plain call with
sufficient fuel). -/
def renderTypescriptPropertyDefinition (opts : RendererOptions) (prop : RawSchema) :
    Except JsError String :=
  renderTsPropFuel opts (schemaSize prop) prop

/-- `renderTypescriptProperties(props)`. -/
def renderTypescriptProperties (opts : RendererOptions)
    (props : Option (List (String × RawSchema))) : Except JsError (List String) :=
  match props with
  | none => .error (.typeErrorUndefined "Object.keys(props)")
  | some pl =>
    let keys := pl.map Prod.fst
    let keys := if opts.sortKeys then jsStableSort (fun a b => jsStrLe a b) keys else keys
    let step : List String → String → Except JsError (List String) := fun acc key =>
      match lookupAL pl key with
      | none => .ok acc -- unreachable: `key` is a key of `pl`
      | some prop =>
        let jsdoc :=
          if truthyStr prop.description then
            generateJsDoc opts prop.description none
              (prop.example'.map jsdocExampleOfJson) none
          else []
        let readonlyText := if opts.emitInterfacesAsReadonly then "readonly " else ""
        match renderTypescriptPropertyDefinition opts prop with
        | .error e => .error e
        | .ok valueText =>
          let separator := if truthyBool prop.required then ": " else "?: "
          .ok (acc ++ jsdoc ++
            [readonlyText ++ formatAsObjectKey key ++ separator ++ valueText ++ ";"])
    match keys.foldlM step [] with
    | .error e => .error e
    | .ok lines => .ok (indentLines opts lines)

/-! ## Endpoint/response cross references -/

/-- `endpointsWithResponseType(schema, endpoints)`. -/
def endpointsWithResponseType (schema : RawSchema) (endpoints : List Endpoint) :
    List CombinedResponseInfo :=
  endpoints.flatMap (fun endpoint =>
    (numericKeys endpoint.responses).filterMap (fun statusCode =>
      match lookupNat endpoint.responses statusCode with
      | none => none -- unreachable
      | some response =>
        let matched : Bool := match response.responseBodySchema with
          | some r =>
            schemaEq r schema ||
              (r.type = some "object" && (r.ref = schema.id || r.id = schema.id))
          | none => false
        if matched then some ⟨endpoint, statusCode, response⟩ else none))

/-- `sortEndpointsForJsDoc(list)`: sort by (method order, url) and collapse
duplicate (method, url) pairs. -/
def sortEndpointsForJsDoc (opts : RendererOptions)
    (list : List CombinedResponseInfo) : List CombinedResponseInfo :=
  let idx := fun (m : String) => ((opts.methodSortOrder.indexOf? m).map Int.ofNat).getD (-1)
  let le := fun (a b : CombinedResponseInfo) =>
    idx a.endpoint.method < idx b.endpoint.method ∨
      (idx a.endpoint.method = idx b.endpoint.method ∧ !(jsStrLt b.endpoint.url a.endpoint.url))
  let sorted := jsStableSort (fun a b => le a b) list
  sorted.foldl
    (fun unique r =>
      if unique.all
          (fun u => u.endpoint.url ≠ r.endpoint.url ∨ u.endpoint.method ≠ r.endpoint.method) then
        unique ++ [r]
      else unique)
    []

/-! ## Interface generation -/

/-- `generateInterfaces(raml, filter)`. -/
def generateInterfaces (opts : RendererOptions) (raml : ParsedMeshRAML)
    (filter : RawSchema → ModelMap → Bool) : Except JsError String :=
  let models := raml.models
  let endpoints := raml.endpoints
  let modelNames := models.map Prod.fst
  let modelNames :=
    if opts.sortInterfaces then
      jsStableSort (fun a b => jsStrLe (generateModelName opts a) (generateModelName opts b)) modelNames
    else modelNames
  let step : List String → String → Except JsError (List String) := fun acc modelRef =>
    match lookupAL models modelRef with
    | none => .ok acc -- unreachable
    | some model =>
      if model.type = some "object" ∧ filter model models then
        let example' : String :=
          if opts.emitResponseExamples then
            let responseExample :=
              (((endpointsWithResponseType model endpoints).map
                (fun ri => ri.response.responseBodyExample)).filter
                  (fun e => match e with | some v => jsTruthyValue v | none => false)).head?
            match responseExample with
            | some (some v) => formatValueAsPOJO v opts.indentation
            | _ => ""
          else ""
        let responses :=
          if opts.emitRequestURLs then
            sortEndpointsForJsDoc opts (endpointsWithResponseType model endpoints)
          else []
        let interfaceName := generateModelName opts modelRef
        let jsDocLines :=
          generateJsDoc opts model.description none (some (.str example')) (some responses)
        match renderTypescriptProperties opts model.properties with
        | .error e => .error e
        | .ok typescriptProperties =>
          .ok (acc ++ jsDocLines ++ ["export interface " ++ interfaceName ++ " \x7b"] ++
            typescriptProperties ++ ["\x7d\n"])
      else .ok acc
  match modelNames.foldlM step [] with
  | .error e => .error e
  | .ok lines => .ok (String.intercalate "\n" lines)

/-! ## Endpoint list generation -/

/-- `groupEndpointsByMethod(endpoints)`. -/
def groupEndpointsByMethod (opts : RendererOptions) (endpoints : List Endpoint) :
    Except JsError (List (String × List Endpoint)) :=
  let grouped : List (String × List Endpoint) := opts.methodSortOrder.map (fun m => (m, []))
  let step : List (String × List Endpoint) → Endpoint →
      Except JsError (List (String × List Endpoint)) := fun g e =>
    if hasKeyAL g e.method then
      .ok (setAL g e.method ((lookupAL g e.method).getD [] ++ [e]))
    else .error (.invalidRequestMethod e.method)
  match endpoints.foldlM step grouped with
  | .error e => .error e
  | .ok g => .ok (g.map (fun p => (p.1, jsStableSort (fun a b => jsStrLe a.url b.url) p.2)))

/-- `formatEndpointInterface(endpoint)`. -/
def formatEndpointInterface (opts : RendererOptions) (endpoint : Endpoint) :
    Except JsError (List String) :=
  let requestLines :=
    formatParameters opts endpoint.urlParameters (some "urlParams") ++
      formatParameters opts endpoint.queryParameters (some "queryParams")
  let bodyStep : Except JsError (List String) :=
    match endpoint.requestBody with
    | none => .ok (requestLines ++ ["body?: undefined;"])
    | some requestBody =>
      match requestBody.schema with
      | none => .ok (requestLines ++ ["body: any;"])
      | some schema =>
        let optional := schema.required = some false
        let optionalText := if optional then "?" else ""
        match renderTypescriptPropertyDefinition opts schema with
        | .error e => .error e
        | .ok valueText =>
          if valueText.data.contains '\n' then
            let lines := jsSplitOn valueText "\n"
            .ok (requestLines ++ ["body" ++ optionalText ++ ": " ++ lines.headD ""] ++
              (lines.drop 1).dropLast ++ [lines.getLastD "" ++ ";"])
          else .ok (requestLines ++ ["body" ++ optionalText ++ ": " ++ valueText ++ ";"])
  match bodyStep with
  | .error e => .error e
  | .ok requestLines =>
    let lines := ["request: \x7b"] ++ indentLines opts requestLines ++ ["\x7d;"]
    let codes := numericKeys endpoint.responses
    let step : List String × List String × Nat → Nat →
        Except JsError (List String × List String × Nat) := fun st statusCode =>
      match lookupNat endpoint.responses statusCode with
      | none => .ok st -- unreachable
      | some response =>
        let rtStep : Except JsError (String × Nat) :=
          match response.responseBodySchema with
          | some s =>
            match renderTypescriptPropertyDefinition opts s with
            | .error e => .error e
            | .ok t => .ok (t, 0)
          | none =>
            if statusCode = 204 then .ok ("undefined", 0)
            else .ok ("undefined /* TODO: This is not typed in the RAML */", 1)
        match rtStep with
        | .error e => .error e
        | .ok (responseType, missing) =>
          let all := if st.1.contains responseType then st.1 else st.1 ++ [responseType]
          let rsl := st.2.1 ++ generateJsDoc opts response.description none none none ++
            [toString statusCode ++ ": " ++ responseType ++ ";"]
          .ok (all, rsl, st.2.2 + missing)
    match codes.foldlM step ([], [], 0) with
    | .error e => .error e
    | .ok (allResponseTypes, responseStatusLines, responsesWithMissingType) =>
      if codes.isEmpty ∨ responsesWithMissingType = allResponseTypes.length then
        .ok (lines ++
          ["responseType: any; // TODO: This is not typed in the RAML",
           "responseTypes: \x7b",
           opts.indentation ++ "200: any; // TODO: This is not typed in the RAML",
           "\x7d;"])
      else
        .ok (lines ++
          ["responseType: " ++ String.intercalate " | " allResponseTypes ++ ";",
           "responseTypes: \x7b"] ++ indentLines opts responseStatusLines ++ ["\x7d;"])

/-- `generateEndpointList(raml)`. -/
def generateEndpointList (opts : RendererOptions) (raml : ParsedMeshRAML) :
    Except JsError String :=
  match groupEndpointsByMethod opts raml.endpoints with
  | .error e => .error e
  | .ok endpointsByMethod =>
    let urlStep : List String → Endpoint → Except JsError (List String) := fun ul endpoint =>
      match formatEndpointInterface opts endpoint with
      | .error e => .error e
      | .ok fe =>
        .ok (ul ++ generateJsDoc opts endpoint.description none none none ++
          [formatAsObjectKey endpoint.url ++ ": \x7b"] ++ indentLines opts fe ++ ["\x7d;"])
    let methodStep : List String → String × List Endpoint →
        Except JsError (List String) := fun acc mp =>
      match mp.2.foldlM urlStep [] with
      | .error e => .error e
      | .ok urlLines =>
        if urlLines.isEmpty then .ok (acc ++ [mp.1 ++ ": \x7b \x7d;"])
        else .ok (acc ++ [mp.1 ++ ": \x7b"] ++ indentLines opts urlLines ++ ["\x7d;"])
    match endpointsByMethod.foldlM methodStep [] with
    | .error e => .error e
    | .ok lines =>
      .ok (String.intercalate "\n"
        (["/** List of all API endpoints and their types */",
          "export interface " ++ opts.endpointInterface ++ " \x7b"] ++
          indentLines opts lines ++ ["\x7d\n"]))

/-! ## renderAll and the composed entry point -/

/-- `fileHead(version)`: the result of the `unindent` template literal of
the source, with the version spliced in (an absent version renders as the
JS coercion `"undefined"`). -/
def fileHead (version : Option String) : String :=
  "// Auto-generated from the RAML for Version " ++ jsStrOf version ++
    " of the Gentics Mesh REST API.\n\nexport type Integer = number;\n\n"

/-- `renderAll(raml)`. -/
def renderAll (opts : RendererOptions) (raml : ParsedMeshRAML) :
    Except JsError String :=
  let head := fileHead raml.version
  let part0 : Except JsError String :=
    if opts.addEndpointList then generateEndpointList opts raml else .ok ""
  match part0 with
  | .error e => .error e
  | .ok p0 =>
    match generateInterfaces opts raml (fun _ _ => true) with
    | .error e => .error e
    | .ok p1 =>
      let body := String.intercalate "\n" ([p0, p1].filter (fun p => p ≠ ""))
      .ok (if body ≠ "" then head ++ body else "")

/-- `parseAndGenerate(raml)` on a decoded document: parse with
`MeshRamlParser`, render with a default-option `TypescriptModelRenderer`. -/
def parseAndGenerate (apiRaml : ApiRaml) : Except JsError String :=
  match parseRAML apiRaml with
  | .error e => .error e
  | .ok parsed => renderAll defaultOptions parsed

/-! ## Derived notions used by the statements -/

/-- The lookup key of an Object definition:
`schema.$ref || schema.id || ''`. -/
def modelLookupKey (schema : RawSchema) : String :=
  if truthyStr schema.ref then schema.ref.getD ""
  else if truthyStr schema.id then schema.id.getD "" else ""

/-- The reference whose model name an Object property renders:
`prop.id || prop.$ref || ''`. -/
def derivedModelRef (prop : RawSchema) : String :=
  if truthyStr prop.id then prop.id.getD ""
  else if truthyStr prop.ref then prop.ref.getD "" else ""

mutual

/-- No sub-schema carries both a truthy `$ref` and a truthy `id` — the
condition under which the registry never overwrites an entry. -/
def noDualIdentity : RawSchema → Bool
  | .mk _ id ref items props ap _ _ _ _ _ =>
    !(truthyStr ref && truthyStr id) &&
      (match items with
        | none => true
        | some s => noDualIdentity s) &&
      (match props with
        | none => true
        | some l => noDualIdentityList l) &&
      (match ap with
        | none => true
        | some s => noDualIdentity s)

/-- `noDualIdentity` over a property list. -/
def noDualIdentityList : List (String × RawSchema) → Bool
  | [] => true
  | (_, s) :: rest => noDualIdentity s && noDualIdentityList rest

end

/-- The `ancestor defines the parameter` condition of the inheritance pass:
the prefix URL resolves to an endpoint whose `urlParameters` contain the
name. -/
def ancestorProvides (byUrl : List (String × Nat)) (eps : List Endpoint)
    (urlPart name : String) : Bool :=
  match lookupAL byUrl urlPart with
  | none => false
  | some j =>
    match eps.get? j with
    | none => false
    | some parent =>
      match parent.urlParameters with
      | none => false
      | some pp => (lookupAL pp name).isSome

/-! ## Concrete fixtures for the claims -/

/-- A plain required string property. -/
def fixPrimString : RawSchema :=
  .mk (some "string") none none none none none (some true) none none none none

/-- A boolean property. -/
def fixPrimBoolean : RawSchema :=
  .mk (some "boolean") none none none none none none none none none none

/-- First-seen object definition with id `X`. -/
def fixFirstX : RawSchema :=
  .mk (some "object") (some "X") none none (some [("a", fixPrimString)]) none none
    (some "first") none none none

/-- A later object definition carrying both the unregistered `$ref` `R` and
the already-registered id `X`. -/
def fixSecondX : RawSchema :=
  .mk (some "object") (some "X") (some "R") none none none none (some "second")
    none none none

/-- The `project` URL parameter of the inheritance fixture. -/
def fixParamProject : Parameter :=
  { description := some "Description of project", type := some "string",
    required := some true, repeat' := none, default := none, example' := none }

/-- The `/{project}` endpoint declaring `project`. -/
def fixEpProject : Endpoint :=
  { method := "GET", url := "/\x7bproject\x7d", description := none,
    urlParameters := some [("project", fixParamProject)], queryParameters := none,
    requestBody := none, responses := [] }

/-- The `/{project}/nodes` endpoint with no own urlParameters. -/
def fixEpNodes : Endpoint :=
  { method := "GET", url := "/\x7bproject\x7d/nodes", description := none,
    urlParameters := none, queryParameters := none, requestBody := none,
    responses := [] }

/-- A request fragment with no body and no responses. -/
def fixMethodMin : RequestSchemaRaml :=
  { description := none, queryParameters := none, body := none, responses := none }

/-- A document whose only endpoint uses `{foo}` without declaring it. -/
def fixDocMissingParam : ApiRaml :=
  ⟨none, none, [("/x", ⟨[("/\x7bfoo\x7d", ⟨none, [("get", fixMethodMin)]⟩)]⟩)]⟩

/-- A document whose discovered URL contains slash runs beyond the first. -/
def fixDocSlashes : ApiRaml :=
  ⟨none, none, [("/a", ⟨[("//x//y", ⟨none, [("get", fixMethodMin)]⟩)]⟩)]⟩

/-- A multipart form parameter stored as a schema property. -/
def fixFormProp : RawSchema :=
  .mk (some "string") none none none none none (some true) none none (some false) none

/-- An object property with neither id, nor `$ref`, nor
`additionalProperties`, whose properties all carry a `repeat` marker. -/
def fixMultipartProp : RawSchema :=
  .mk (some "object") none none none (some [("fileField", fixFormProp)]) none none
    none none none none

/-- A parsed document with zero endpoints and zero models. -/
def fixEmptyRaml : ParsedMeshRAML := ⟨some "/api/v1", [], [], some "1.0"⟩

/-- The parsed body-less `204` response. -/
def fixResp204 : Response :=
  { description := some "No content", responseBodySchema := none,
    responseBodyExample := none }

/-- A DELETE endpoint whose only response is a body-less `204`. -/
def fixEp204 : Endpoint :=
  { method := "DELETE", url := "/a", description := some "del",
    urlParameters := none, queryParameters := none, requestBody := none,
    responses := [(204, fixResp204)] }

/-- The raw RAML response entry of a body-less `204`. -/
def fixResp204Yaml : ResponseYamlRaml := { description := some "No content", body := none }

/-- The merge performed by the inheritance pass:
`Object.assign({}, parentEndpoint.urlParameters, endpoint.urlParameters || {})`. -/
def mergeParentParams (e : Endpoint) (parentParams : List (String × Parameter)) :
    Endpoint :=
  { e with urlParameters := some (jsAssign (jsAssign [] parentParams) (e.urlParameters.getD [])) }

/-- `fixEpNodes` after inheriting `project` from `fixEpProject`. -/
def fixEpNodesMerged : Endpoint :=
  { fixEpNodes with urlParameters := some [("project", fixParamProject)] }

/-- The output of `renderAll` on an empty document when `addEndpointList`
is set. -/
def fixC5Output : String :=
  "// Auto-generated from the RAML for Version 1.0 of the Gentics Mesh REST API.\n\nexport type Integer = number;\n\n/** List of all API endpoints and their types */\nexport interface ApiEndpoints \x7b\n    GET: \x7b \x7d;\n    POST: \x7b \x7d;\n    PATCH: \x7b \x7d;\n    PUT: \x7b \x7d;\n    DELETE: \x7b \x7d;\n\x7d\n"

/-- The endpoint-interface lines rendered for `fixEp204`. -/
def fixC9Lines : List String :=
  ["request: \x7b", "    urlParams?: \x7b \x7d;", "    queryParams?: \x7b \x7d;", "    body?: undefined;",
   "\x7d;", "responseType: undefined;", "responseTypes: \x7b", "    /** No content */",
   "    204: undefined;", "\x7d;"]

/-!
# Theorems

One theorem per claim of the specification, with witnesses for theorems
that carry hypotheses and counterexamples where the claim fails on the
code.
-/

/-- The structural size of a schema node is one more than the sizes of its
components (stated as a successor so that the fuelled recursion unfolds). -/
theorem schemaSize_mk_succ (t i r : Option String) (it : Option RawSchema)
    (p : Option (List (String × RawSchema))) (ap : Option RawSchema)
    (rq : Option Bool) (d : Option String) (e : Option JsonValue)
    (rp : Option Bool) (df : Option String) :
    schemaSize (.mk t i r it p ap rq d e rp df) =
      (optSchemaSize it + optPropsSize p + optSchemaSize ap) + 1 := by
  simp [schemaSize]
  omega

/-- C6: for every PropertyDefinition whose type is one of any, boolean,
integer, number, or string, `normalizeSchema` returns the input value
unchanged and leaves the model registry exactly as it was. -/
theorem C6_normalizeSchema_primitive_identity (schema : RawSchema) (m : ModelMap)
    (h : schema.type = some "any" ∨ schema.type = some "boolean" ∨
      schema.type = some "integer" ∨ schema.type = some "number" ∨
      schema.type = some "string") :
    normalizeSchema schema m = .ok (schema, m) := by
  cases schema with
  | mk ty id ref items props ap rq desc ex rp df =>
    simp only [RawSchema.type] at h
    rcases h with h | h | h | h | h <;> subst h <;>
      (unfold normalizeSchema; rw [schemaSize_mk_succ]; simp only [normSchemaFuel]; simp)

/-- Witness for C6 at a concrete boolean property and non-empty registry. -/
theorem C6_normalizeSchema_primitive_identity_witness :
    normalizeSchema fixPrimBoolean [("X", fixFirstX)] =
      .ok (fixPrimBoolean, [("X", fixFirstX)]) :=
  C6_normalizeSchema_primitive_identity fixPrimBoolean [("X", fixFirstX)]
    (Or.inr (Or.inl rfl))

/-- C10 fails as stated: `wordWrap "abc" 3` returns `["abc"]` although
`maxLength` is not 0 and the length of `"abc"` is not strictly below it. -/
theorem C10_counterexample :
    wordWrap "abc" 3 = ["abc"] ∧
      ¬ ((3 : Int) = 0 ∨ (("abc".length : Int) < 3)) := by
  constructor
  · decide
  · decide

/-- C10 (amended): the early-return condition — `maxLength` 0 (or falsy) or
length strictly below `maxLength` — is sufficient for returning `[s]`
unchanged, but not necessary; a line whose length equals `maxLength` is
subject to the wrapping algorithm (which, e.g., consumes leading
whitespace), and `maxLength = 0` disables wrapping entirely. -/
theorem C10_wordWrap_early_return :
    (∀ (s : String) (n : Int), s.data.contains '\n' = false →
      (n = 0 ∨ (s.length : Int) < n) → wordWrap s n = [s]) ∧
    wordWrap "  abcd" 6 = ["abcd"] ∧ ("  abcd" : String) ≠ "abcd" := by
  refine ⟨fun s n hnl h => ?_, by decide, by decide⟩
  unfold wordWrap
  rw [hnl]
  simp only [Bool.false_eq_true, if_false]
  unfold wordWrapLine
  rw [if_pos h]

/-- Witness for the quantified part of the amended C10. -/
theorem C10_wordWrap_early_return_witness :
    wordWrap "xy" 0 = ["xy"] :=
  C10_wordWrap_early_return.1 "xy" 0 (by decide) (Or.inl rfl)

/-- C3 fails as stated: the document `fixDocSlashes` discovers the endpoint
URL `/a//x//y`, in which the later runs of consecutive slashes are *not*
collapsed (only the first run is; collapsing every run would give
`/a/x/y`). -/
theorem C3_counterexample :
    (findModelsAndEndpoints fixDocSlashes).toOption.map
        (fun r => r.1.map (fun e => e.url)) = some ["/a//x//y"] ∧
      collapseAllSlashRuns "/a//x//y" = "/a/x/y" ∧
      ("/a//x//y" : String) ≠ "/a/x/y" := by
  refine ⟨by decide, by decide, by decide⟩

/-- C3 (amended): the endpoint URL is the concatenation of parentPath and
childPath (a childPath of exactly `/` contributing nothing) in which only
the *first* run of consecutive slashes — the leading one, since discovered
parent paths start with `/` — is collapsed into a single slash; the rest of
the concatenation is kept verbatim. -/
theorem C3_deriveUrl_collapses_first_run (p c : String)
    (hp : p.data.head? = some '/') :
    (deriveUrl p c).data =
      '/' :: (p.data.tail ++ (if c = "/" then [] else c.data)).dropWhile
        (fun ch => ch = '/') := by
  unfold deriveUrl replaceFirstSlashRun
  have happ : (p ++ (if c = "/" then "" else c)).data =
      p.data ++ (if c = "/" then "" else c).data := String.data_append p _
  cases hpd : p.data with
  | nil => rw [hpd] at hp; cases hp
  | cons c0 t =>
    rw [hpd] at hp
    have hc0 : c0 = '/' := by
      simpa using hp
    subst hc0
    rw [happ, hpd]
    have hdat : (if c = "/" then "" else c).data = (if c = "/" then [] else c.data) := by
      split <;> rfl
    rw [hdat]
    simp [replaceFirstSlashRunAux]

/-- Witness for the amended C3 at the parent `/a` and child `//x//y`. -/
theorem C3_deriveUrl_collapses_first_run_witness :
    (deriveUrl "/a" "//x//y").data =
      '/' :: ("/a".data.tail ++ (if "//x//y" = ("/" : String) then []
        else "//x//y".data)).dropWhile (fun ch => ch = '/') :=
  C3_deriveUrl_collapses_first_run "/a" "//x//y" (by decide)

/-- Every schema node has positive structural size. -/
theorem schemaSize_pos (s : RawSchema) : 0 < schemaSize s := by
  cases s with
  | mk t i r it p ap rq d e rp df => rw [schemaSize_mk_succ]; omega

theorem optSchemaSize_some (s : RawSchema) :
    optSchemaSize (some s) = 1 + schemaSize s := by
  simp [optSchemaSize]

/-- The fuelled property renderer does not depend on the fuel, as long as
the fuel dominates the structural size of the schema. -/
theorem renderTsPropFuel_fuel_irrel (opts : RendererOptions) :
    ∀ (f1 : Nat), ∀ (f2 : Nat) (prop : RawSchema), schemaSize prop ≤ f1 →
      schemaSize prop ≤ f2 → renderTsPropFuel opts f1 prop = renderTsPropFuel opts f2 prop := by
  intro f1
  induction f1 with
  | zero =>
    intro f2 prop h1 _
    have := schemaSize_pos prop
    omega
  | succ a ih =>
    intro f2 prop h1 h2
    cases f2 with
    | zero =>
      have := schemaSize_pos prop
      omega
    | succ b =>
      cases prop with
      | mk ty id ref items props ap rq d e rp df =>
        rw [schemaSize_mk_succ] at h1 h2
        cases items with
        | none =>
          cases ap with
          | none => simp only [renderTsPropFuel]
          | some x =>
            have hx : schemaSize x ≤ a ∧ schemaSize x ≤ b := by
              rw [optSchemaSize_some (s := x)] at h1 h2
              constructor <;> omega
            simp only [renderTsPropFuel]
            rw [ih b x hx.1 hx.2]
        | some it =>
          have hit : schemaSize it ≤ a ∧ schemaSize it ≤ b := by
            rw [optSchemaSize_some (s := it)] at h1 h2
            constructor <;> omega
          cases ap with
          | none =>
            simp only [renderTsPropFuel]
            rw [ih b it hit.1 hit.2]
          | some x =>
            have hx : schemaSize x ≤ a ∧ schemaSize x ≤ b := by
              rw [optSchemaSize_some (s := x)] at h1 h2
              constructor <;> omega
            simp only [renderTsPropFuel]
            rw [ih b it hit.1 hit.2, ih b x hx.1 hx.2]

/-- C4 fails as stated: an object property definition with neither `id`
nor `$ref` nor `additionalProperties` can still render successfully when
its `properties` are multipart form parameters (every value carries a
`repeat` marker) — a third success case. -/
theorem C4_counterexample :
    renderTypescriptPropertyDefinition defaultOptions fixMultipartProp =
      .ok "\x7b\n\n    fileField: string;\n\x7d" ∧
    fixMultipartProp.id = none ∧ fixMultipartProp.ref = none ∧
    fixMultipartProp.additionalProperties = none :=
  ⟨rfl, rfl, rfl, rfl⟩

/-- C4 (amended): object property rendering has exactly four outcomes —
the derived model name when the definition carries a truthy `id` or `$ref`
*and* the derived name is non-empty; else the string-keyed map type over
the recursively rendered `additionalProperties`; else, when `properties`
is present and every property value carries a `repeat` marker (a multipart
form body), an inline parameter block; otherwise a fatal error carrying the
offending value. -/
theorem C4_objectRendering_cases :
    (∀ (opts : RendererOptions) (prop : RawSchema),
      prop.type = some "object" →
      (truthyStr prop.id ∨ truthyStr prop.ref) →
      generateModelName opts (derivedModelRef prop) ≠ "" →
      renderTypescriptPropertyDefinition opts prop =
        .ok (generateModelName opts (derivedModelRef prop))) ∧
    (∀ (opts : RendererOptions) (prop a : RawSchema) (v : String),
      prop.type = some "object" →
      ¬ (generateModelName opts (derivedModelRef prop) ≠ "" ∧
        (truthyStr prop.id ∨ truthyStr prop.ref)) →
      prop.additionalProperties = some a →
      renderTypescriptPropertyDefinition opts a = .ok v →
      renderTypescriptPropertyDefinition opts prop =
        .ok ("\x7b [key: string]: " ++ v ++ " \x7d")) ∧
    (∀ (opts : RendererOptions) (prop : RawSchema) (pl : List (String × RawSchema)),
      prop.type = some "object" →
      ¬ (generateModelName opts (derivedModelRef prop) ≠ "" ∧
        (truthyStr prop.id ∨ truthyStr prop.ref)) →
      prop.additionalProperties = none →
      prop.properties = some pl →
      pl.all (fun p => p.2.repeat'.isSome) →
      renderTypescriptPropertyDefinition opts prop =
        .ok (String.intercalate "\n"
          (formatParameters opts (some (pl.map (fun p => (p.1, paramOfSchema p.2)))) none))) ∧
    (∀ (opts : RendererOptions) (prop : RawSchema),
      prop.type = some "object" →
      ¬ (generateModelName opts (derivedModelRef prop) ≠ "" ∧
        (truthyStr prop.id ∨ truthyStr prop.ref)) →
      prop.additionalProperties = none →
      (prop.properties = none ∨ ∃ pl, prop.properties = some pl ∧
        ¬ pl.all (fun p => p.2.repeat'.isSome)) →
      renderTypescriptPropertyDefinition opts prop = .error (.objectWithoutId prop)) := by
  refine ⟨?_, ?_, ?_, ?_⟩
  · intro opts prop hty hid hmn
    cases prop with
    | mk ty id ref items props ap rq d e rp df =>
      simp only [RawSchema.type] at hty
      subst hty
      simp only [RawSchema.id, RawSchema.ref] at hid
      simp only [derivedModelRef, RawSchema.id, RawSchema.ref] at hmn ⊢
      unfold renderTypescriptPropertyDefinition
      rw [schemaSize_mk_succ]
      simp only [renderTsPropFuel]
      rw [if_neg (by simp), if_neg (by simp), if_neg (by simp)]
      rw [if_pos trivial]
      rw [if_pos ⟨hmn, hid⟩]
  · intro opts prop a v hty hnot hap hrec
    cases prop with
    | mk ty id ref items props ap rq d e rp df =>
      simp only [RawSchema.type] at hty
      subst hty
      simp only [RawSchema.additionalProperties] at hap
      subst hap
      simp only [derivedModelRef, RawSchema.id, RawSchema.ref] at hnot
      unfold renderTypescriptPropertyDefinition at hrec ⊢
      rw [schemaSize_mk_succ]
      simp only [renderTsPropFuel]
      rw [if_neg (by simp), if_neg (by simp), if_neg (by simp)]
      rw [if_pos trivial]
      rw [if_neg hnot]
      have : renderTsPropFuel opts (optSchemaSize items + optPropsSize props +
          optSchemaSize (some a)) a = .ok v := by
        rw [renderTsPropFuel_fuel_irrel opts _ (schemaSize a) a
          (by rw [optSchemaSize_some]; omega) (le_refl _)]
        exact hrec
      rw [this]
  · intro opts prop pl hty hnot hap hpl hall
    cases prop with
    | mk ty id ref items props ap rq d e rp df =>
      simp only [RawSchema.type] at hty
      subst hty
      simp only [RawSchema.additionalProperties] at hap
      subst hap
      simp only [RawSchema.properties] at hpl
      subst hpl
      simp only [derivedModelRef, RawSchema.id, RawSchema.ref] at hnot
      unfold renderTypescriptPropertyDefinition
      rw [schemaSize_mk_succ]
      simp only [renderTsPropFuel]
      rw [if_neg (by simp), if_neg (by simp), if_neg (by simp)]
      rw [if_pos trivial]
      rw [if_neg hnot]
      rw [if_pos hall]
  · intro opts prop hty hnot hap hprops
    cases prop with
    | mk ty id ref items props ap rq d e rp df =>
      simp only [RawSchema.type] at hty
      subst hty
      simp only [RawSchema.additionalProperties] at hap
      subst hap
      simp only [derivedModelRef, RawSchema.id, RawSchema.ref] at hnot
      simp only [RawSchema.properties] at hprops
      unfold renderTypescriptPropertyDefinition
      rw [schemaSize_mk_succ]
      simp only [renderTsPropFuel]
      rw [if_neg (by simp), if_neg (by simp), if_neg (by simp)]
      rw [if_pos trivial]
      rw [if_neg hnot]
      rcases hprops with h | ⟨pl, hpl, hnall⟩
      · subst h; rfl
      · subst hpl
        simp [hnall]

/-- Witness for the amended C4 (hypotheses discharged at concrete inputs:
the model-name case at `fixSecondX`, the error case at an object schema
with no identity, no map shape and no form-parameter properties). -/
theorem C4_objectRendering_cases_witness :
    renderTypescriptPropertyDefinition defaultOptions fixSecondX = .ok "X" ∧
    renderTypescriptPropertyDefinition defaultOptions
        (.mk (some "object") none none none none none none none none none none) =
      .error (.objectWithoutId
        (.mk (some "object") none none none none none none none none none none)) :=
  ⟨C4_objectRendering_cases.1 defaultOptions fixSecondX rfl (Or.inl (by decide))
      (by decide),
    C4_objectRendering_cases.2.2.2 defaultOptions
      (.mk (some "object") none none none none none none none none none none)
      rfl (by decide) rfl (Or.inl rfl)⟩

/-- With zero models, interface generation yields empty text for every
options configuration. -/
theorem generateInterfaces_no_models (opts : RendererOptions)
    (baseUri version : Option String) (endpoints : List Endpoint)
    (filter : RawSchema → ModelMap → Bool) :
    generateInterfaces opts ⟨baseUri, endpoints, [], version⟩ filter = .ok "" := by
  unfold generateInterfaces
  simp [jsStableSort]
  rfl

set_option maxRecDepth 8000 in
/-- C5 fails as stated: with `addEndpointList` enabled, a document yielding
zero endpoints and zero models still renders the preamble and an empty
endpoint-index skeleton, not the empty string. -/
theorem C5_counterexample :
    renderAll { defaultOptions with addEndpointList := true } fixEmptyRaml =
        .ok fixC5Output ∧
      fixC5Output ≠ "" :=
  ⟨rfl, fun hc => List.noConfusion (congrArg String.data hc)⟩

/-- C5 (amended): the composed parse-and-generate entry point returns the
empty string on a document yielding zero endpoints and zero models whenever
`addEndpointList` is disabled — in particular for the default options used
by `parseAndGenerate`; with `addEndpointList` enabled the output is
non-empty. -/
theorem C5_empty_document_renders_empty :
    (∀ (opts : RendererOptions) (baseUri version : Option String),
      opts.addEndpointList = false →
      renderAll opts ⟨baseUri, [], [], version⟩ = .ok "") ∧
    (∀ (baseUri version : Option String),
      parseAndGenerate ⟨baseUri, version, []⟩ = .ok "") := by
  have h1 : ∀ (opts : RendererOptions) (baseUri version : Option String),
      opts.addEndpointList = false →
      renderAll opts ⟨baseUri, [], [], version⟩ = .ok "" := by
    intro opts baseUri version h
    unfold renderAll
    rw [h]
    rw [generateInterfaces_no_models]
    simp
    intro hc
    exact absurd rfl hc
  refine ⟨h1, fun baseUri version => ?_⟩
  have hp : parseRAML ⟨baseUri, version, []⟩ = .ok ⟨baseUri, [], [], version⟩ := rfl
  unfold parseAndGenerate
  rw [hp]
  exact h1 defaultOptions baseUri version rfl

/-- Witness for the amended C5 at concrete options and document fields. -/
theorem C5_empty_document_renders_empty_witness :
    renderAll defaultOptions ⟨some "/api/v1", [], [], some "1.0"⟩ = .ok "" :=
  C5_empty_document_renders_empty.1 defaultOptions (some "/api/v1") (some "1.0") rfl

/-- C2: when a placeholder name is missing from an endpoint's own
urlParameters and the URL prefix ending at the placeholder's closing brace
resolves (via the by-URL index) to an endpoint that defines it, the
inheritance step replaces the endpoint's parameters by
`Object.assign({}, parent.urlParameters, endpoint.urlParameters || {})`
(own declarations winning on key collision); concretely, the pass gives
`/{project}/nodes` a urlParameters map containing `project` with the exact
definition copied from `/{project}`. -/
theorem C2_uriParameter_inheritance :
    (∀ (byUrl : List (String × Nat)) (eps : List Endpoint) (i j : Nat)
      (e parent : Endpoint) (parentParams : List (String × Parameter))
      (name : String) (endIdx : Nat),
      eps.get? i = some e →
      lookupAL (e.urlParameters.getD []) name = none →
      lookupAL byUrl (String.mk (e.url.data.take endIdx)) = some j →
      eps.get? j = some parent →
      parent.urlParameters = some parentParams →
      (lookupAL parentParams name).isSome →
      resolvePlaceholder byUrl eps i (name, endIdx) =
        .ok (eps.set i (mergeParentParams e parentParams))) ∧
    (addMissingUriParameters [fixEpProject, fixEpNodes] =
        .ok [fixEpProject, fixEpNodesMerged] ∧
      lookupAL (fixEpNodesMerged.urlParameters.getD []) "project" =
        some fixParamProject) := by
  refine ⟨?_, rfl, rfl⟩
  intro byUrl eps i j e parent parentParams name endIdx hget hown hurl hgetj hpp hlook
  simp only [resolvePlaceholder, hget]
  have hownHas : (match e.urlParameters with
      | none => false
      | some ps => (lookupAL ps name).isSome) = false := by
    cases hup : e.urlParameters with
    | none => rfl
    | some ps =>
      rw [hup] at hown
      simpa using hown
  rw [hownHas]
  simp only [Bool.false_eq_true, if_false, hurl, hgetj, hpp]
  rw [if_pos hlook]
  simp [mergeParentParams]

/-- Witness for C2 at the `/{project}` / `/{project}/nodes` fixture. -/
theorem C2_uriParameter_inheritance_witness :
    resolvePlaceholder [("/\x7bproject\x7d", 0), ("/\x7bproject\x7d/nodes", 1)]
        [fixEpProject, fixEpNodes] 1 ("project", 10) =
      .ok ([fixEpProject, fixEpNodes].set 1
        (mergeParentParams fixEpNodes [("project", fixParamProject)])) :=
  C2_uriParameter_inheritance.1 [("/\x7bproject\x7d", 0), ("/\x7bproject\x7d/nodes", 1)]
    [fixEpProject, fixEpNodes] 1 0 fixEpNodes fixEpProject
    [("project", fixParamProject)] "project" 10 rfl rfl rfl rfl rfl (by decide)

/-- C8: a placeholder whose name is defined neither in the endpoint's own
urlParameters nor by the endpoint registered under the placeholder's
enclosing URL prefix makes the step fail with an error carrying both the
parameter name and the endpoint URL; otherwise the step raises no error;
and the whole normalization of a document with an undeclared `{foo}`
placeholder fails with exactly that error. -/
theorem C8_missing_parameter_error :
    (∀ (byUrl : List (String × Nat)) (eps : List Endpoint) (i : Nat)
      (name : String) (endIdx : Nat) (e : Endpoint),
      eps.get? i = some e →
      lookupAL (e.urlParameters.getD []) name = none →
      ancestorProvides byUrl eps (String.mk (e.url.data.take endIdx)) name = false →
      resolvePlaceholder byUrl eps i (name, endIdx) =
        .error (.missingUrlParameter name e.url)) ∧
    (∀ (byUrl : List (String × Nat)) (eps : List Endpoint) (i : Nat)
      (name : String) (endIdx : Nat) (e : Endpoint),
      eps.get? i = some e →
      ((lookupAL (e.urlParameters.getD []) name).isSome ∨
        ancestorProvides byUrl eps (String.mk (e.url.data.take endIdx)) name = true) →
      ∃ eps', resolvePlaceholder byUrl eps i (name, endIdx) = .ok eps') ∧
    findModelsAndEndpoints fixDocMissingParam =
      .error (.missingUrlParameter "foo" "/x/\x7bfoo\x7d") := by
  refine ⟨?_, ?_, rfl⟩
  · intro byUrl eps i name endIdx e hget hown hanc
    simp only [resolvePlaceholder, hget]
    have hownHas : (match e.urlParameters with
        | none => false
        | some ps => (lookupAL ps name).isSome) = false := by
      cases hup : e.urlParameters with
      | none => rfl
      | some ps =>
        rw [hup] at hown
        simpa using hown
    rw [hownHas]
    simp only [Bool.false_eq_true, if_false]
    unfold ancestorProvides at hanc
    cases hbu : lookupAL byUrl (String.mk (e.url.data.take endIdx)) with
    | none => simp [hbu]
    | some j =>
      simp only [hbu] at hanc
      simp only [hbu]
      cases hj : eps.get? j with
      | none => simp [hj]
      | some parent =>
        simp only [hj] at hanc
        simp only [hj]
        cases hpp : parent.urlParameters with
        | none => simp [hpp]
        | some pp =>
          simp only [hpp] at hanc
          simp only [hpp]
          rw [if_neg (by simp [hanc])]
  · intro byUrl eps i name endIdx e hget h
    cases hown : (lookupAL (e.urlParameters.getD []) name).isSome with
    | true =>
      refine ⟨eps, ?_⟩
      simp only [resolvePlaceholder, hget]
      have hownHas : (match e.urlParameters with
          | none => false
          | some ps => (lookupAL ps name).isSome) = true := by
        cases hup : e.urlParameters with
        | none =>
          rw [hup] at hown
          simp [lookupAL] at hown
        | some ps =>
          rw [hup] at hown
          simpa using hown
      rw [hownHas]
      rfl
    | false =>
      have hanc : ancestorProvides byUrl eps (String.mk (e.url.data.take endIdx)) name = true := by
        rcases h with h | h
        · rw [hown] at h; cases h
        · exact h
      unfold ancestorProvides at hanc
      simp only [resolvePlaceholder, hget]
      have hownHas : (match e.urlParameters with
          | none => false
          | some ps => (lookupAL ps name).isSome) = false := by
        cases hup : e.urlParameters with
        | none => rfl
        | some ps =>
          rw [hup] at hown
          simpa using hown
      rw [hownHas]
      simp only [Bool.false_eq_true, if_false]
      cases hbu : lookupAL byUrl (String.mk (e.url.data.take endIdx)) with
      | none => simp [hbu] at hanc
      | some j =>
        simp only [hbu] at hanc
        simp only [hbu]
        cases hj : eps.get? j with
        | none =>
          simp only [hj] at hanc
          exact Bool.noConfusion hanc
        | some parent =>
          simp only [hj] at hanc
          simp only [hj]
          cases hpp : parent.urlParameters with
          | none => simp [hpp] at hanc
          | some pp =>
            simp only [hpp] at hanc
            simp only [hpp]
            exact ⟨_, by rw [if_pos hanc]⟩

/-- Witness for C8: a lone endpoint `/x/{foo}` with no parameters and no
ancestors fails at its placeholder with the name and URL in the error. -/
theorem C8_missing_parameter_error_witness :
    resolvePlaceholder [] [fixEpNodes] 0 ("project", 10) =
      .error (.missingUrlParameter "project" "/\x7bproject\x7d/nodes") :=
  C8_missing_parameter_error.1 [] [fixEpNodes] 0 "project" 10 fixEpNodes rfl rfl rfl

/-- C9: a response entry whose body carries neither schema nor example
yields a `Response` with both fields absent and no error; the renderer
accepts such a response, rendering the `204` response type as `undefined`. -/
theorem C9_bodyless_responses :
    (∀ (ry : ResponseYamlRaml) (m : ModelMap),
      (ry.body.bind (fun b => b.applicationJson)).bind (fun b => b.schema) = none →
      (ry.body.bind (fun b => b.applicationJson)).bind (fun b => b.example') = none →
      traverseOneResponse ry m = .ok (⟨ry.description, none, none⟩, m)) ∧
    traverseResponseSchemas (some [(204, fixResp204Yaml)]) [] =
      .ok ([(204, fixResp204)], []) ∧
    formatEndpointInterface defaultOptions fixEp204 = .ok fixC9Lines ∧
    "responseType: undefined;" ∈ fixC9Lines ∧ "    204: undefined;" ∈ fixC9Lines := by
  refine ⟨?_, rfl, rfl, by decide, by decide⟩
  intro ry m h1 h2
  unfold traverseOneResponse
  simp only [h1, h2]

/-- Witness for C9 at the concrete body-less 204 entry. -/
theorem C9_bodyless_responses_witness :
    traverseOneResponse fixResp204Yaml [] =
      .ok (⟨fixResp204Yaml.description, none, none⟩, []) :=
  C9_bodyless_responses.1 fixResp204Yaml [] rfl rfl

/-! ## Registry lemmas for C1 -/

/-- Lookup in the empty registry. -/
theorem lookupAL_nil {α : Type} (k : String) :
    lookupAL ([] : List (String × α)) k = none := rfl

/-- Lookup steps over a cons cell. -/
theorem lookupAL_cons {α : Type} (a : String) (b : α) (l : List (String × α)) (k : String) :
    lookupAL ((a, b) :: l) k = if a = k then some b else lookupAL l k := by
  by_cases h : a = k <;> simp [lookupAL, List.find?, h]

/-- The in-place update branch of `setAL` leaves other keys untouched. -/
theorem lookupAL_map_update {α : Type} (k k' : String) (v : α) (h : ¬ k' = k) :
    ∀ m : List (String × α),
      lookupAL (m.map (fun p => if p.1 = k' then (k', v) else p)) k = lookupAL m k := by
  intro m
  induction m with
  | nil => rfl
  | cons p rest ih =>
    obtain ⟨a, b⟩ := p
    by_cases ha : a = k'
    · subst ha
      simp [lookupAL_cons, h, ih]
    · simp only [List.map_cons, if_neg ha]
      rw [lookupAL_cons, lookupAL_cons, ih]

/-- The in-place update branch of `setAL` installs the new value. -/
theorem lookupAL_map_update_self {α : Type} (k : String) (v : α) :
    ∀ m : List (String × α), hasKeyAL m k = true →
      lookupAL (m.map (fun p => if p.1 = k then (k, v) else p)) k = some v := by
  intro m
  induction m with
  | nil => intro h; simp [hasKeyAL, lookupAL] at h
  | cons p rest ih =>
    intro h
    obtain ⟨a, b⟩ := p
    by_cases ha : a = k
    · subst ha
      simp [List.map_cons, lookupAL_cons]
    · have h' : hasKeyAL rest k = true := by
        simpa [hasKeyAL, lookupAL_cons, ha] using h
      simp only [List.map_cons, if_neg ha]
      rw [lookupAL_cons, if_neg ha, ih h']

/-- Lookup after appending a single binding. -/
theorem lookupAL_append_one {α : Type} (m : List (String × α)) (k k' : String) (v : α) :
    lookupAL (m ++ [(k', v)]) k =
      (match lookupAL m k with
        | some w => some w
        | none => if k' = k then some v else none) := by
  induction m with
  | nil =>
    rw [List.nil_append, lookupAL_cons, lookupAL_nil]
  | cons p rest ih =>
    obtain ⟨a, b⟩ := p
    rw [List.cons_append, lookupAL_cons, lookupAL_cons]
    by_cases ha : a = k
    · simp [ha]
    · simp only [if_neg ha, ih]

/-- `hash[key] = v` makes `hash[key]` yield `v`. -/
theorem lookupAL_setAL_self {α : Type} (m : List (String × α)) (k : String) (v : α) :
    lookupAL (setAL m k v) k = some v := by
  unfold setAL
  split
  · exact lookupAL_map_update_self k v m (by assumption)
  · rename_i hkey
    have hm : lookupAL m k = none := by
      cases hl : lookupAL m k with
      | none => rfl
      | some w => exact absurd (by simp [hasKeyAL, hl]) hkey
    rw [lookupAL_append_one, hm, if_pos rfl]

/-- `hash[key] = v` leaves every other key unchanged. -/
theorem lookupAL_setAL_ne {α : Type} (m : List (String × α)) (k k' : String) (v : α)
    (h : ¬ k' = k) :
    lookupAL (setAL m k' v) k = lookupAL m k := by
  unfold setAL
  split
  · exact lookupAL_map_update k k' v h m
  · rw [lookupAL_append_one]
    cases hm : lookupAL m k with
    | some w => rfl
    | none => simp [h]

/-- `setAL` never removes a key. -/
theorem lookupAL_setAL_isSome {α : Type} (m : List (String × α)) (k k' : String) (v : α)
    (h : (lookupAL m k).isSome = true) :
    (lookupAL (setAL m k' v) k).isSome = true := by
  by_cases hk : k' = k
  · subst hk
    rw [lookupAL_setAL_self]
    rfl
  · rw [lookupAL_setAL_ne m k k' v hk]
    exact h

/-- A conditional `setAL` never removes a key. -/
theorem lookupAL_ite_setAL_isSome {α : Type} (c : Prop) [Decidable c]
    (m : List (String × α)) (k k' : String) (v : α)
    (h : (lookupAL m k).isSome = true) :
    (lookupAL (if c then setAL m k' v else m) k).isSome = true := by
  split
  · exact lookupAL_setAL_isSome _ _ _ _ h
  · exact h

/-- A conditional `setAL` on a different key preserves a binding. -/
theorem lookupAL_ite_setAL_preserve {α : Type} (c : Prop) [Decidable c]
    (m : List (String × α)) (k k' : String) (v w : α) (hne : ¬ k' = k)
    (h : lookupAL m k = some w) :
    lookupAL (if c then setAL m k' v else m) k = some w := by
  split
  · rw [lookupAL_setAL_ne _ _ _ _ hne]
    exact h
  · exact h

/-- Components of `noDualIdentity` at a constructor. -/
theorem noDualIdentity_parts {t i r : Option String} {it : Option RawSchema}
    {p : Option (List (String × RawSchema))} {a : Option RawSchema}
    {rq : Option Bool} {d : Option String} {e : Option JsonValue}
    {rp : Option Bool} {df : Option String} :
    noDualIdentity (.mk t i r it p a rq d e rp df) = true →
    (!(truthyStr r && truthyStr i)) = true ∧
    (match it with
      | none => true
      | some s => noDualIdentity s) = true ∧
    (match p with
      | none => true
      | some l => noDualIdentityList l) = true ∧
    (match a with
      | none => true
      | some s => noDualIdentity s) = true := by
  intro h
  unfold noDualIdentity at h
  simp only [Bool.and_eq_true] at h
  exact ⟨h.1.1.1, h.1.1.2, h.1.2, h.2⟩

/-- Components of `noDualIdentityList` at a cons cell. -/
theorem noDualIdentityList_cons {k : String} {s : RawSchema}
    {rest : List (String × RawSchema)}
    (h : noDualIdentityList ((k, s) :: rest) = true) :
    noDualIdentity s = true ∧ noDualIdentityList rest = true := by
  simp only [noDualIdentityList, Bool.and_eq_true] at h
  exact h

/-- Joint preservation properties of the fuelled normalizer: a key present
in the input registry is still present afterwards, and — provided no
sub-schema carries both a truthy `$ref` and a truthy `id` — registered
values are never overwritten. -/
theorem normFuel_preserves (fuel : Nat) :
    (∀ (tyOv : Option (Option String)) (schema : RawSchema) (m : ModelMap)
      (r : RawSchema) (m' : ModelMap),
      normSchemaFuel fuel tyOv schema m = .ok (r, m') →
      (∀ k, (lookupAL m k).isSome = true → (lookupAL m' k).isSome = true) ∧
      (noDualIdentity schema = true →
        ∀ k v, lookupAL m k = some v → lookupAL m' k = some v)) ∧
    (∀ (props : Option (List (String × RawSchema))) (m : ModelMap)
      (r : Option (List (String × RawSchema))) (m' : ModelMap),
      normPropsFuel fuel props m = .ok (r, m') →
      (∀ k, (lookupAL m k).isSome = true → (lookupAL m' k).isSome = true) ∧
      ((match props with
        | none => true
        | some l => noDualIdentityList l) = true →
        ∀ k v, lookupAL m k = some v → lookupAL m' k = some v)) ∧
    (∀ (l : List (String × RawSchema)) (m : ModelMap)
      (r : List (String × RawSchema)) (m' : ModelMap),
      normPropsListFuel fuel l m = .ok (r, m') →
      (∀ k, (lookupAL m k).isSome = true → (lookupAL m' k).isSome = true) ∧
      (noDualIdentityList l = true →
        ∀ k v, lookupAL m k = some v → lookupAL m' k = some v)) := by
  induction fuel with
  | zero =>
    refine ⟨?_, ?_, ?_⟩
    · intro tyOv schema m r m' h
      simp [normSchemaFuel] at h
    · intro props m r m' h
      cases props with
      | none =>
        simp only [normPropsFuel, Except.ok.injEq, Prod.mk.injEq] at h
        obtain ⟨-, rfl⟩ := h
        exact ⟨fun k hk => hk, fun _ k v hv => hv⟩
      | some l => simp [normPropsFuel] at h
    · intro l m r m' h
      cases l with
      | nil =>
        simp only [normPropsListFuel, Except.ok.injEq, Prod.mk.injEq] at h
        obtain ⟨-, rfl⟩ := h
        exact ⟨fun k hk => hk, fun _ k v hv => hv⟩
      | cons p rest => simp [normPropsListFuel] at h
  | succ fuel ih =>
    obtain ⟨ihS, ihP, ihL⟩ := ih
    refine ⟨?_, ?_, ?_⟩
    · intro tyOv schema m r m' h
      cases schema with
      | mk ty0 id ref items props ap rq desc ex rp df =>
        simp only [normSchemaFuel] at h
        split at h
        · -- primitive type: registry untouched
          simp only [Except.ok.injEq, Prod.mk.injEq] at h
          obtain ⟨-, rfl⟩ := h
          exact ⟨fun k hk => hk, fun _ k v hv => hv⟩
        · split at h
          · -- array
            split at h
            · exact absurd h (by simp)
            · rename_i a
              split at h
              · exact absurd h (by simp)
              · rename_i ni m1 heqA
                simp only [Except.ok.injEq, Prod.mk.injEq] at h
                obtain ⟨-, rfl⟩ := h
                have hrec := ihS _ _ _ _ _ heqA
                refine ⟨fun k hk => hrec.1 k hk, fun hnd k v hv => ?_⟩
                have parts := noDualIdentity_parts hnd
                exact hrec.2 (by simpa using parts.2.1) k v hv
          · split at h
            · -- object
              split at h
              · -- registry hit: registry untouched
                simp only [Except.ok.injEq, Prod.mk.injEq] at h
                obtain ⟨-, rfl⟩ := h
                exact ⟨fun k hk => hk, fun _ k v hv => hv⟩
              · -- registry miss
                rename_i hMiss
                split at h
                · exact absurd h (by simp)
                · rename_i props' m1 heqP
                  split at h
                  · exact absurd h (by simp)
                  · rename_i ap' m2 hA
                    simp only [Except.ok.injEq, Prod.mk.injEq] at h
                    obtain ⟨-, rfl⟩ := h
                    split at hA
                    · -- additionalProperties absent
                      simp only [Except.ok.injEq, Prod.mk.injEq] at hA
                      obtain ⟨-, rfl⟩ := hA
                      constructor
                      · intro k hk
                        have h1 := (ihP _ _ _ _ heqP).1 k
                          (lookupAL_ite_setAL_isSome _ m k _ _ hk)
                        exact lookupAL_ite_setAL_isSome _ _ _ _ _ h1
                      · intro hnd k v hv
                        have parts := noDualIdentity_parts hnd
                        by_cases hid : truthyStr id = true
                        · have href : truthyStr ref = false := by
                            cases hr : truthyStr ref
                            · rfl
                            · have h1 := parts.1
                              rw [hr, hid] at h1
                              exact absurd h1 (by decide)
                          have hkey : lookupAL m (id.getD "") = none := by
                            simpa [href, hid] using hMiss
                          have hkne : ¬ (id.getD "" = k) := by
                            intro he
                            rw [he] at hkey
                            rw [hkey] at hv
                            exact Option.noConfusion hv
                          have hv1 := (ihP _ _ _ _ heqP).2 parts.2.2.1 k v
                            (lookupAL_ite_setAL_preserve _ _ _ _ _ _ hkne hv)
                          exact lookupAL_ite_setAL_preserve _ _ _ _ _ _ hkne hv1
                        · have hid' : truthyStr id = false := by
                            simpa using hid
                          simp only [hid', Bool.false_eq_true, if_false] at heqP ⊢
                          exact (ihP _ _ _ _ heqP).2 parts.2.2.1 k v hv
                    · -- additionalProperties present
                      rename_i a
                      split at hA
                      · exact absurd hA (by simp)
                      · rename_i na m2' heqA
                        simp only [Except.ok.injEq, Prod.mk.injEq] at hA
                        obtain ⟨-, rfl⟩ := hA
                        constructor
                        · intro k hk
                          have h1 := (ihP _ _ _ _ heqP).1 k
                            (lookupAL_ite_setAL_isSome _ m k _ _ hk)
                          have h2 := (ihS _ _ _ _ _ heqA).1 k h1
                          exact lookupAL_ite_setAL_isSome _ _ _ _ _ h2
                        · intro hnd k v hv
                          have parts := noDualIdentity_parts hnd
                          have hnda : noDualIdentity a = true := by
                            simpa using parts.2.2.2
                          by_cases hid : truthyStr id = true
                          · have href : truthyStr ref = false := by
                              cases hr : truthyStr ref
                              · rfl
                              · have h1 := parts.1
                                rw [hr, hid] at h1
                                exact absurd h1 (by decide)
                            have hkey : lookupAL m (id.getD "") = none := by
                              simpa [href, hid] using hMiss
                            have hkne : ¬ (id.getD "" = k) := by
                              intro he
                              rw [he] at hkey
                              rw [hkey] at hv
                              exact Option.noConfusion hv
                            have hv1 := (ihP _ _ _ _ heqP).2 parts.2.2.1 k v
                              (lookupAL_ite_setAL_preserve _ _ _ _ _ _ hkne hv)
                            have hv2 := (ihS _ _ _ _ _ heqA).2 hnda k v hv1
                            exact lookupAL_ite_setAL_preserve _ _ _ _ _ _ hkne hv2
                          · have hid' : truthyStr id = false := by
                              simpa using hid
                            simp only [hid', Bool.false_eq_true, if_false] at heqP ⊢
                            have hv1 := (ihP _ _ _ _ heqP).2 parts.2.2.1 k v hv
                            exact (ihS _ _ _ _ _ heqA).2 hnda k v hv1
            · exact absurd h (by simp)
    · intro props m r m' h
      cases props with
      | none =>
        simp only [normPropsFuel, Except.ok.injEq, Prod.mk.injEq] at h
        obtain ⟨-, rfl⟩ := h
        exact ⟨fun k hk => hk, fun _ k v hv => hv⟩
      | some l =>
        simp only [normPropsFuel] at h
        split at h
        · exact absurd h (by simp)
        · rename_i l' m1 heqL
          simp only [Except.ok.injEq, Prod.mk.injEq] at h
          obtain ⟨-, rfl⟩ := h
          have hrec := ihL _ _ _ _ heqL
          exact ⟨hrec.1, fun hnd => hrec.2 hnd⟩
    · intro l m r m' h
      cases l with
      | nil =>
        simp only [normPropsListFuel, Except.ok.injEq, Prod.mk.injEq] at h
        obtain ⟨-, rfl⟩ := h
        exact ⟨fun k hk => hk, fun _ k v hv => hv⟩
      | cons p rest =>
        obtain ⟨pk, pv⟩ := p
        simp only [normPropsListFuel] at h
        split at h
        · exact absurd h (by simp)
        · rename_i v' m1 heqV
          split at h
          · exact absurd h (by simp)
          · rename_i rest' m2 heqR
            simp only [Except.ok.injEq, Prod.mk.injEq] at h
            obtain ⟨-, rfl⟩ := h
            constructor
            · intro k hk
              exact (ihL _ _ _ _ heqR).1 k ((ihS _ _ _ _ _ heqV).1 k hk)
            · intro hnd k v hv
              obtain ⟨hnd1, hnd2⟩ := noDualIdentityList_cons hnd
              exact (ihL _ _ _ _ heqR).2 hnd2 k v
                ((ihS _ _ _ _ _ heqV).2 hnd1 k v hv)

/-- C1 fails as stated: with `X` already registered to its first-seen
definition, normalizing a second Object definition that carries the same
`id` `X` alongside an unregistered `$ref` `R` overwrites the registry entry
for `X` with the freshly-seen definition — the two definitions differ in
their `description`. -/
theorem C1_counterexample :
    lookupAL [("X", fixFirstX)] "X" = some fixFirstX ∧
    normalizeSchema fixSecondX [("X", fixFirstX)] =
      .ok (fixSecondX, [("X", fixSecondX)]) ∧
    RawSchema.description fixFirstX ≠ RawSchema.description fixSecondX :=
  ⟨rfl, rfl, by decide⟩

/-- C1 (amended): an Object definition whose lookup key (`$ref` if present,
else `id`, else the empty string) is already registered normalizes to the
previously stored instance with the registry untouched; registry keys are
never removed by a normalization run; and provided no sub-definition
carries both a truthy `$ref` and a truthy `id`, registered values are never
overwritten (without that proviso the `else if (schema.id)` store can
overwrite a registered entry, as the counterexample shows). -/
theorem C1_registry_first_seen :
    (∀ (schema : RawSchema) (m : ModelMap) (stored : RawSchema),
      schema.type = some "object" →
      lookupAL m (modelLookupKey schema) = some stored →
      normalizeSchema schema m = .ok (stored, m)) ∧
    (∀ (schema : RawSchema) (m : ModelMap) (r : RawSchema) (m' : ModelMap),
      normalizeSchema schema m = .ok (r, m') →
      ∀ k, (lookupAL m k).isSome = true → (lookupAL m' k).isSome = true) ∧
    (∀ (schema : RawSchema) (m : ModelMap) (r : RawSchema) (m' : ModelMap),
      noDualIdentity schema = true →
      normalizeSchema schema m = .ok (r, m') →
      ∀ k v, lookupAL m k = some v → lookupAL m' k = some v) := by
  refine ⟨?_, ?_, ?_⟩
  · intro schema m stored hty hhit
    cases schema with
    | mk ty0 id ref items props ap rq desc ex rp df =>
      simp only [RawSchema.type] at hty
      subst hty
      unfold normalizeSchema
      rw [schemaSize_mk_succ]
      simp only [normSchemaFuel]
      simp only [modelLookupKey, RawSchema.ref, RawSchema.id] at hhit
      simp [hhit]
  · intro schema m r m' h
    exact ((normFuel_preserves (schemaSize schema)).1 none schema m r m' h).1
  · intro schema m r m' hnd h
    exact ((normFuel_preserves (schemaSize schema)).1 none schema m r m' h).2 hnd

/-- Witness for the amended C1: a registry hit returns the stored
first-seen definition unchanged. -/
theorem C1_registry_first_seen_witness :
    normalizeSchema
        (.mk (some "object") (some "X") none none none none none none none none none)
        [("X", fixFirstX)] = .ok (fixFirstX, [("X", fixFirstX)]) :=
  C1_registry_first_seen.1
    (.mk (some "object") (some "X") none none none none none none none none none)
    [("X", fixFirstX)] fixFirstX rfl rfl


/-! ## Tokenizer and wrap lemmas for C7 -/

/-- Every word emitted by the tokenizer is nonempty. -/
theorem tokenizeAux_word_pos :
    ∀ (cs spR wR : List Char) (p : String × String),
      p ∈ tokenizeAux cs spR wR → 1 ≤ p.2.length := by
  intro cs
  induction cs with
  | nil =>
    intro spR wR p hp
    cases wR with
    | nil => simp [tokenizeAux] at hp
    | cons w ws =>
      simp only [tokenizeAux, List.mem_singleton] at hp
      subst hp
      show 1 ≤ ((w :: ws).reverse).length
      simp
  | cons c rest ih =>
    intro spR wR p hp
    simp only [tokenizeAux] at hp
    by_cases hs : jsIsSpace c = true
    · rw [if_pos hs] at hp
      cases wR with
      | nil => exact ih _ _ _ hp
      | cons w ws =>
        rcases List.mem_cons.mp hp with h | h
        · subst h
          show 1 ≤ ((w :: ws).reverse).length
          simp
        · exact ih _ _ _ h
    · rw [if_neg hs] at hp
      exact ih _ _ _ hp

/-- A token word is no longer than the text it was scanned from. -/
theorem tokenizeAux_word_le :
    ∀ (cs spR wR : List Char) (p : String × String),
      p ∈ tokenizeAux cs spR wR → p.2.length ≤ wR.length + cs.length := by
  intro cs
  induction cs with
  | nil =>
    intro spR wR p hp
    cases wR with
    | nil => simp [tokenizeAux] at hp
    | cons w ws =>
      simp only [tokenizeAux, List.mem_singleton] at hp
      subst hp
      show ((w :: ws).reverse).length ≤ (w :: ws).length + ([] : List Char).length
      simp
  | cons c rest ih =>
    intro spR wR p hp
    simp only [tokenizeAux] at hp
    by_cases hs : jsIsSpace c = true
    · rw [if_pos hs] at hp
      cases wR with
      | nil =>
        have := ih _ _ _ hp
        simp only [List.length_nil, List.length_cons] at this ⊢
        omega
      | cons w ws =>
        rcases List.mem_cons.mp hp with h | h
        · subst h
          show ((w :: ws).reverse).length ≤ (w :: ws).length + (c :: rest).length
          simp
        · have := ih _ _ _ h
          simp only [List.length_nil, List.length_cons] at this ⊢
          omega
    · rw [if_neg hs] at hp
      have := ih _ _ _ hp
      simp only [List.length_cons] at this ⊢
      omega

/-- `join` of a single-word line is the word. -/
theorem join_singleton (w : String) : String.join [w] = w := by
  cases w
  rfl

/-- A single wrap step never removes an already-flushed line. -/
theorem wrapStep_lines_mono (n : Int) (st : Nat × List String × List String)
    (tok : String × String) (x : String) (hx : x ∈ st.2.2) :
    x ∈ (wrapStep n st tok).2.2 := by
  obtain ⟨len, cl, lines⟩ := st
  obtain ⟨sp, w⟩ := tok
  by_cases hc : len ≠ 0 ∧ n < (len : Int) + sp.length + w.length
  · have hstep : wrapStep n (len, cl, lines) (sp, w) =
        (w.length, [w], lines ++ [String.join cl]) := by
      simp [wrapStep, hc]
    rw [hstep]
    exact List.mem_append_left _ hx
  · by_cases hcl : cl ≠ []
    · have hstep : wrapStep n (len, cl, lines) (sp, w) =
          (len + sp.length + w.length, cl ++ [sp, w], lines) := by
        simp [wrapStep, hc, hcl]
      rw [hstep]
      exact hx
    · have hcl' : cl = [] := not_not.mp hcl
      subst hcl'
      have hstep : wrapStep n (len, [], lines) (sp, w) =
          (len + w.length, [w], lines) := by
        simp [wrapStep, hc]
      rw [hstep]
      exact hx

/-- The whole fold never removes an already-flushed line. -/
theorem wrapFold_lines_mono (n : Int) (toks : List (String × String)) :
    ∀ (st : Nat × List String × List String) (x : String), x ∈ st.2.2 →
      x ∈ (toks.foldl (wrapStep n) st).2.2 := by
  induction toks with
  | nil => intro st x hx; exact hx
  | cons t rest ih =>
    intro st x hx
    exact ih _ x (wrapStep_lines_mono n st t x hx)

/-- The final flush keeps every already-flushed line. -/
theorem wrapFinish_mem (st : Nat × List String × List String) (x : String)
    (hx : x ∈ st.2.2) : x ∈ wrapFinish st := by
  unfold wrapFinish
  split
  · exact List.mem_append_left _ hx
  · exact hx

/-- Once a word sits alone on the current line with at least `n` counted
characters, it survives into the output whole. -/
theorem wrap_survives (n : Int) (hn : 0 < n) (w : String) :
    ∀ (toks : List (String × String)) (len : Nat) (lines : List String),
      n ≤ (len : Int) →
      (∀ p : String × String, p ∈ toks → 1 ≤ p.2.length) →
      w ∈ wrapFinish (toks.foldl (wrapStep n) (len, [w], lines)) := by
  intro toks
  induction toks with
  | nil =>
    intro len lines _ _
    simp [wrapFinish, join_singleton]
  | cons t rest ih =>
    intro len lines hlen hwords
    obtain ⟨sp', w'⟩ := t
    have hw' : 1 ≤ w'.length := hwords (sp', w') (List.mem_cons_self _ _)
    have hlen0 : len ≠ 0 := by
      intro h
      rw [h] at hlen
      simp at hlen
      omega
    have hcond : len ≠ 0 ∧ n < (len : Int) + sp'.length + w'.length := by
      refine ⟨hlen0, ?_⟩
      have h1 : (0 : Int) ≤ sp'.length := Int.ofNat_nonneg _
      have h2 : (1 : Int) ≤ w'.length := by exact_mod_cast hw'
      omega
    have hstep : wrapStep n (len, [w], lines) (sp', w') =
        (w'.length, [w'], lines ++ [String.join [w]]) := by
      simp [wrapStep, hcond]
    rw [List.foldl_cons, hstep]
    have hx : w ∈ lines ++ [String.join [w]] := by
      simp [join_singleton]
    exact wrapFinish_mem _ _ (wrapFold_lines_mono n rest _ w hx)

/-- A step on a nonempty word leaves a nonzero counted length. -/
theorem wrapStep_len_pos (n : Int) (st : Nat × List String × List String)
    (tok : String × String) (h : 1 ≤ tok.2.length) :
    (wrapStep n st tok).1 ≠ 0 := by
  obtain ⟨len, cl, lines⟩ := st
  obtain ⟨sp, w⟩ := tok
  simp only at h
  by_cases hc : len ≠ 0 ∧ n < (len : Int) + sp.length + w.length
  · have hstep : wrapStep n (len, cl, lines) (sp, w) =
        (w.length, [w], lines ++ [String.join cl]) := by
      simp [wrapStep, hc]
    rw [hstep]
    omega
  · by_cases hcl : cl ≠ []
    · have hstep : wrapStep n (len, cl, lines) (sp, w) =
          (len + sp.length + w.length, cl ++ [sp, w], lines) := by
        simp [wrapStep, hc, hcl]
      rw [hstep]
      simp only
      omega
    · have hcl' : cl = [] := not_not.mp hcl
      subst hcl'
      have hstep : wrapStep n (len, [], lines) (sp, w) =
          (len + w.length, [w], lines) := by
        simp [wrapStep, hc]
      rw [hstep]
      simp only
      omega

/-- Any token word of length at least `n` appears whole in the output of the
fold-and-finish pipeline. -/
theorem wrap_main (n : Int) (hn : 0 < n) (sp w : String)
    (hw : n ≤ (w.length : Int)) :
    ∀ (toks : List (String × String)) (st : Nat × List String × List String),
      (st.1 = 0 → st.2.1 = []) →
      (∀ p : String × String, p ∈ toks → 1 ≤ p.2.length) →
      (sp, w) ∈ toks →
      w ∈ wrapFinish (toks.foldl (wrapStep n) st) := by
  intro toks
  induction toks with
  | nil => intro st _ _ hmem; simp at hmem
  | cons t rest ih =>
    intro st hinv hwords hmem
    obtain ⟨len, cl, lines⟩ := st
    obtain ⟨sp1, w1⟩ := t
    rcases List.mem_cons.mp hmem with heq | hmem'
    · injection heq with h1 h2
      subst h1
      subst h2
      by_cases h0 : len = 0
      · have hcl : cl = [] := hinv h0
        subst h0
        subst hcl
        have hstep : wrapStep n (0, [], lines) (sp, w) = (w.length, [w], lines) := by
          simp [wrapStep]
        rw [List.foldl_cons, hstep]
        exact wrap_survives n hn w rest w.length lines hw
          (fun p hp => hwords p (List.mem_cons_of_mem _ hp))
      · have hcond : len ≠ 0 ∧ n < (len : Int) + sp.length + w.length := by
          refine ⟨h0, ?_⟩
          have h1 : (0 : Int) ≤ sp.length := Int.ofNat_nonneg _
          have h2 : 1 ≤ len := Nat.one_le_iff_ne_zero.mpr h0
          have h3 : (1 : Int) ≤ (len : Int) := by exact_mod_cast h2
          omega
        have hstep : wrapStep n (len, cl, lines) (sp, w) =
            (w.length, [w], lines ++ [String.join cl]) := by
          simp [wrapStep, hcond]
        rw [List.foldl_cons, hstep]
        exact wrap_survives n hn w rest w.length (lines ++ [String.join cl]) hw
          (fun p hp => hwords p (List.mem_cons_of_mem _ hp))
    · have h1 : 1 ≤ ((sp1, w1) : String × String).2.length :=
        hwords _ (List.mem_cons_self _ _)
      rw [List.foldl_cons]
      exact ih (wrapStep n (len, cl, lines) (sp1, w1))
        (fun h => absurd h (wrapStep_len_pos n _ _ h1))
        (fun p hp => hwords p (List.mem_cons_of_mem _ hp)) hmem'

set_option maxRecDepth 8000 in
/-- C7: `wordWrap` at width 20 wraps the example line into exactly the
three expected lines; and wrapping never splits a single word across
lines: for every single-line input, every scanned word at least as long as
the maximum length appears whole as one of the output lines — in
particular the 34-character word wrapped at width 10 is returned unchanged
as one line. -/
theorem C7_wordWrap_never_splits_words :
    wordWrap "A line that is exactly 32 characters long." 20 =
      ["A line that is", "exactly 32", "characters long."] ∧
    wordWrap "supercalifragilisticexpialidocious" 10 =
      ["supercalifragilisticexpialidocious"] ∧
    (∀ (s : String) (n : Int), 0 < n → s.data.contains '\n' = false →
      ∀ sp w, (sp, w) ∈ jsTokenize s → n ≤ (w.length : Int) →
        w ∈ wordWrap s n) := by
  refine ⟨rfl, rfl, ?_⟩
  intro s n hn hnl sp w hmem hw
  unfold wordWrap
  rw [hnl]
  simp only [Bool.false_eq_true, if_false]
  unfold wordWrapLine
  split
  · rename_i hearly
    rcases hearly with h | h
    · omega
    · exfalso
      have hle : w.length ≤ s.data.length := by
        simpa using tokenizeAux_word_le s.data [] [] (sp, w) hmem
      have hsl : s.length = s.data.length := rfl
      omega
  · exact wrap_main n hn sp w hw (jsTokenize s) (0, [], [])
      (fun _ => rfl) (fun p hp => tokenizeAux_word_pos s.data [] [] p hp) hmem

/-- Witness for the quantified part of C7 at the long-word example. -/
theorem C7_wordWrap_never_splits_words_witness :
    "supercalifragilisticexpialidocious" ∈
      wordWrap "supercalifragilisticexpialidocious" 10 :=
  C7_wordWrap_never_splits_words.2.2 "supercalifragilisticexpialidocious" 10
    (by decide) (by decide) "" "supercalifragilisticexpialidocious"
    (by decide) (by decide)

end MeshGen
